import Mathlib

/-!
Verification of the scoring engine of the challonge-to-csv repository
(`src/routes/simpleBrackets.ts`).  The definitions below are a shallow
embedding of the TypeScript source: JavaScript numbers appearing in the
player statistics are modelled as rationals (`ℚ`) — all arithmetic the
engine performs on them (`+1`, `*3`, `*1.5`, `*0.5`, `max`) is exact in
both doubles and `ℚ` for the magnitudes involved — match rounds, scores
and ranks as integers, nullable fields as `Option`, and JavaScript
insertion-ordered `Map`/`Set` objects as association lists / deduplicated
lists.
-/

namespace ChallongeToCsv

/-- `MatchWithPlayers` from `simpleBrackets.ts`: the processed match record
handed to `calculatePlayerPoints`.  Fields the scoring engine never reads
(`createdAt`, `updatedAt`, `playOrder`) are kept for completeness.
`stageName` is a plain string (the processing stage always assigns one of
`"Group Stage"`, `"Final Stage"`, `"Main Bracket"`). -/
structure MatchWithPlayers where
  matchId : String
  round : Int
  player1 : String
  player2 : String
  player1Score : Option Int
  player2Score : Option Int
  scoreDifference : Option Int
  winner : Option String
  state : String
  groupStage : Option String
  stageName : String
  playOrder : Option Int
  createdAt : String
  updatedAt : String
  player1Id : Option String
  player2Id : Option String
  forfeited : Bool
  deriving DecidableEq, Repr

/-- `PlayerStats` from `simpleBrackets.ts` (output record of
`calculatePlayerPoints`).  All JavaScript-number counters are `ℚ`. -/
structure PlayerStats where
  event_id : String
  player : String
  swiss_wins : ℚ
  swiss_losses : ℚ
  swiss_close_losses : ℚ
  byes : ℚ
  streak_bonus : ℚ
  finals_place : Option Int
  finals_points : ℚ
  event_total : ℚ
  deriving DecidableEq, Repr

/-- `ChallongeParticipantData` (the fields read by the scoring engine). -/
structure ChallongeParticipantData where
  id : String
  tournament_id : String
  name : String
  final_rank : Option Int
  seed : Option Int
  group_player_ids : Option (List String)
  deriving DecidableEq, Repr

/-- `ChallongeMatchData` (raw match from the API, fields read by
`processTournamentData` / `extractScoresFromCsv`).  The declared TypeScript
types make every id a string, so the `String(...)` coercions in the source
are identities and ids are modelled as `String`. -/
structure ChallongeMatchData where
  id : String
  tournament_id : String
  identifier : String
  round : Int
  state : String
  player1_id : Option String
  player2_id : Option String
  player1_score : Option Int
  player2_score : Option Int
  winner_id : Option String
  loser_id : Option String
  group_id : Option String
  suggested_play_order : Option Int
  created_at : String
  updated_at : String
  scores_csv : Option String
  forfeited : Bool
  deriving DecidableEq, Repr

/-- A group-stage descriptor from `tournament.group_stages`. -/
structure GroupStage where
  id : String
  identifier : String
  state : String
  deriving DecidableEq, Repr

/-- `ChallongeTournament`, restricted to the fields the processing and
scoring functions read.  `participants` and `matches` hold the inner
(already unwrapped) records, mirroring the `p.participant` / `m.match`
unwrapping done before any of the logic modelled here runs. -/
structure ChallongeTournament where
  id : String
  name : String
  group_stages_enabled : Bool
  group_stages : List GroupStage
  participants : List ChallongeParticipantData
  /-- The `matches` field of the source (`matches` is reserved in Lean). -/
  matchList : List ChallongeMatchData
  deriving DecidableEq, Repr

/-- Truthiness of a nullable string in JavaScript: non-null and non-empty. -/
def truthyStr : Option String → Bool
  | some s => s ≠ ""
  | none => false

/-- Value of a string of decimal digits. -/
def digitsVal (cs : List Char) : Nat :=
  cs.foldl (fun acc c => acc * 10 + (c.toNat - '0'.toNat)) 0

/-- JavaScript `parseInt(s, 10)`: skip leading whitespace, read an optional
sign then the longest prefix of decimal digits; `NaN` (here `none`) when no
digit is found. -/
def parseIntJS (s : String) : Option Int :=
  let cs := s.data.dropWhile (fun c => c.isWhitespace)
  let signRest : Int × List Char :=
    match cs with
    | '-' :: tl => (-1, tl)
    | '+' :: tl => (1, tl)
    | tl => (1, tl)
  let digits := signRest.2.takeWhile (fun c => c.isDigit)
  if digits = [] then none else some (signRest.1 * (digitsVal digits : Int))

/-- `extractScoresFromCsv` from `simpleBrackets.ts`.  When `scores_csv` is
present (truthy) the string is split on `-` and both parts parsed; the
first number is given to the winner when `winner_id` matches a player id,
otherwise the numbers are assigned positionally.  Without a truthy
`scores_csv` the explicit `player1_score`/`player2_score` fields are used. -/
def extractScoresFromCsv (m : ChallongeMatchData) : Option Int × Option Int :=
  if truthyStr m.scores_csv then
    let s := m.scores_csv.getD ""
    match s.splitOn "-" with
    | a :: b :: _ =>
      match parseIntJS a, parseIntJS b with
      | some score1, some score2 =>
        if m.winner_id = m.player1_id then (some score1, some score2)
        else if m.winner_id = m.player2_id then (some score2, some score1)
        else (some score1, some score2)
      | _, _ => (none, none)
    | _ => (none, none)
  else
    (m.player1_score, m.player2_score)

/-- Insertion-ordered JavaScript `Map<string,string>`: `set` overwrites in
place or appends. -/
def mapSet (m : List (String × String)) (k v : String) : List (String × String) :=
  if m.any (fun kv => kv.1 = k) then m.map (fun kv => if kv.1 = k then (k, v) else kv)
  else m ++ [(k, v)]

/-- `Map.get`. -/
def mapGet (m : List (String × String)) (k : String) : Option String :=
  (m.find? (fun kv => kv.1 == k)).map (fun kv => kv.2)

/-- `x || d` on a looked-up nullable string: the default is taken both for
`undefined` and for an empty (falsy) string. -/
def orElseStr (o : Option String) (d : String) : String :=
  match o with
  | some s => if s = "" then d else s
  | none => d

/-- The `participantMap`: participant id → name, in participant order. -/
def participantMap (ps : List ChallongeParticipantData) : List (String × String) :=
  ps.foldl (fun m p => mapSet m p.id p.name) []

/-- First layer of the `groupPlayerMap`: every group player id of every
participant mapped to the participant's name. -/
def groupPlayerMapBase (ps : List ChallongeParticipantData) : List (String × String) :=
  ps.foldl (fun m p =>
    match p.group_player_ids with
    | some gids => gids.foldl (fun m' gid => mapSet m' gid p.name) m
    | none => m) []

/-- The insertion-ordered `Set` of all (truthy) player ids appearing in the
match list. -/
def allPlayerIds (ms : List ChallongeMatchData) : List String :=
  ms.foldl
 (fun acc m =>
    let acc := match m.player1_id with
      | some pid => if pid ≠ "" ∧ ¬ acc.contains pid then acc ++ [pid] else acc
      | none => acc
    match m.player2_id with
    | some pid => if pid ≠ "" ∧ ¬ acc.contains pid then acc ++ [pid] else acc
    | none => acc) []

/-- The speculative 1:1 id-to-participant assignment performed when the
number of distinct player ids equals the number of participants: the i-th
participant is bound to the i-th discovered id unless that id is already
mapped. -/
def groupPlayerMap (t : ChallongeTournament) : List (String × String) :=
  let base := groupPlayerMapBase t.participants
  let ids := allPlayerIds t.matchList
  if ids.length = t.participants.length then
    (t.participants.zip ids).foldl (fun m pid =>
      if m.any (fun kv => kv.1 = pid.2) then m else mapSet m pid.2 pid.1.name) base
  else base

/-- The body of the `matches.map(...)` in `processTournamentData`: turn one
raw match into a `MatchWithPlayers`, resolving names through the two maps
and classifying the stage. -/
def processedMatch (t : ChallongeTournament) (pMap gMap : List (String × String))
    (m : ChallongeMatchData) : MatchWithPlayers :=
  let isFinalsMatch := t.group_stages_enabled ∧ ¬ truthyStr m.group_id
  let player1Id := if truthyStr m.player1_id then m.player1_id else none
  let player2Id := if truthyStr m.player2_id then m.player2_id else none
  let winnerId := if truthyStr m.winner_id then m.winner_id else none
  let player1Name :=
    if isFinalsMatch then
      match m.player1_id with
      | some pid => if pid ≠ "" then orElseStr (mapGet pMap pid) "Player 1" else "BYE"
      | none => "BYE"
    else
      match player1Id with
      | some pid => orElseStr (mapGet pMap pid) (orElseStr (mapGet gMap pid) "Player 1")
      | none => "BYE"
  let player2Name :=
    if isFinalsMatch then
      match m.player2_id with
      | some pid => if pid ≠ "" then orElseStr (mapGet pMap pid) "Player 2" else "BYE"
      | none => "BYE"
    else
      match player2Id with
      | some pid => orElseStr (mapGet pMap pid) (orElseStr (mapGet gMap pid) "Player 2")
      | none => "BYE"
  let winnerName : Option String :=
    if isFinalsMatch then
      match m.winner_id with
      | some wid => if wid ≠ "" then some (orElseStr (mapGet pMap wid) "Winner") else none
      | none => none
    else
      match winnerId with
      | some wid => some (orElseStr (mapGet pMap wid) (orElseStr (mapGet gMap wid) "Winner"))
      | none => none
  let scores := extractScoresFromCsv m
  let scoreDifference : Option Int :=
    match scores.1, scores.2 with
    | some a, some b => some (a - b).natAbs
    | _, _ => none
  let stagePair : Option String × String :=
    if t.group_stages_enabled then
      if truthyStr m.group_id then
        let gid := m.group_id.getD ""
        match t.group_stages.find? (fun g => g.id == gid) with
        | some g => (some g.identifier, "Group Stage")
        | none => (some ("Group " ++ gid), "Group Stage")
      else (none, "Final Stage")
    else (none, "Main Bracket")
  { matchId := m.id
    round := m.round
    player1 := player1Name
    player2 := player2Name
    player1Score := scores.1
    player2Score := scores.2
    scoreDifference := scoreDifference
    winner := winnerName
    state := m.state
    groupStage := stagePair.1
    stageName := stagePair.2
    playOrder := match m.suggested_play_order with
      | some n => if n ≠ 0 then some n else none
      | none => none
    createdAt := m.created_at
    updatedAt := m.updated_at
    player1Id := m.player1_id
    player2Id := m.player2_id
    forfeited := m.forfeited }

/-- The pure core of `processTournamentData`: build both lookup maps and
process every match. -/
def processMatches (t : ChallongeTournament) : List MatchWithPlayers :=
  let pMap := participantMap t.participants
  let gMap := groupPlayerMap t
  t.matchList.map (processedMatch t pMap gMap)

/-! ## The scoring engine: `calculatePlayerPoints` -/

/-- `matches.filter(match => match.stageName === "Group Stage")`. -/
def groupMatchesOf (ms : List MatchWithPlayers) : List MatchWithPlayers :=
  ms.filter (fun m => m.stageName == "Group Stage")

/-- `matches.filter(... === "Final Stage" || ... === "Main Bracket")`. -/
def finalMatchesOf (ms : List MatchWithPlayers) : List MatchWithPlayers :=
  ms.filter (fun m => m.stageName == "Final Stage" || m.stageName == "Main Bracket")

/-- The insertion-ordered `Set` of player names: both players of every
match, skipping falsy names and the `"BYE"` sentinel. -/
def collectPlayers (ms : List MatchWithPlayers) : List String :=
  ms.foldl (fun acc m =>
    let acc := if m.player1 ≠ "" ∧ m.player1 ≠ "BYE" ∧ ¬ acc.contains m.player1
      then acc ++ [m.player1] else acc
    if m.player2 ≠ "" ∧ m.player2 ≠ "BYE" ∧ ¬ acc.contains m.player2
      then acc ++ [m.player2] else acc) []

/-- A freshly initialized `PlayerStats` record. -/
def initStats (eventId p : String) : PlayerStats :=
  { event_id := eventId, player := p, swiss_wins := 0, swiss_losses := 0,
    swiss_close_losses := 0, byes := 0, streak_bonus := 0, finals_place := none,
    finals_points := 0, event_total := 0 }

/-- `playerStatsMap.get(p)`: the map is keyed by player name. -/
def statsFind (l : List PlayerStats) (p : String) : Option PlayerStats :=
  l.find? (fun s => s.player == p)

/-- Mutating the record `playerStatsMap.get(p)` in place: rewrite the entry
with that name (names are unique, as the map was seeded from the
deduplicated player set). -/
def updateStats (l : List PlayerStats) (p : String) (f : PlayerStats → PlayerStats) :
    List PlayerStats :=
  l.map (fun s => if s.player = p then f s else s)

/-- The names (map keys) of a stats list. -/
def statsNames (l : List PlayerStats) : List String := l.map (fun s => s.player)

/-- Point update of a total map (`Map.set`); reads in the source are always
`get(k) || 0`, so the maps behave as total functions defaulting to zero. -/
def setFun {α : Type} (f : String → α) (k : String) (v : α) : String → α :=
  fun x => if x = k then v else f x

/-- The mutable state of the Swiss pass: the stats map plus the
`winStreaks` and `totalStreakBonuses` maps. -/
structure SwissState where
  stats : List PlayerStats
  streaks : String → Nat
  bonuses : String → ℚ

/-- State at the start of the Swiss pass: every discovered player has a
zero record, zero streak and zero accumulated bonus. -/
def initSwissState (eventId : String) (players : List String) : SwissState :=
  { stats := players.map (initStats eventId), streaks := fun _ => 0, bonuses := fun _ => 0 }

/-- The loss recorded against the loser of a scored Swiss match: a close
loss when the score difference is non-null and at most 2, a plain loss
otherwise. -/
def loserLossUpdate (m : MatchWithPlayers) (s : PlayerStats) : PlayerStats :=
  if (match m.scoreDifference with | some d => decide (d ≤ 2) | none => false) then
    { s with swiss_close_losses := s.swiss_close_losses + 1 }
  else
    { s with swiss_losses := s.swiss_losses + 1 }

/-- The body of the per-match loop of the Swiss pass (`roundMatches.forEach`
in `calculatePlayerPoints`): skip non-complete matches, the `"BYE"` guard,
matches without a (truthy) winner, and unscored non-forfeits; forfeits
credit the winner a win without touching their streak and reset the
loser's streak; scored matches credit the winner a win, extend their
streak (accumulating 0.5 bonus from the second consecutive win on), and
give the loser a (close) loss and a streak reset.  The "loser" is the
player the winner name does not equal — `player1` when the winner matches
neither player. -/
def processSwissMatch (st : SwissState) (m : MatchWithPlayers) : SwissState :=
  if m.state = "complete" then
    if m.player1 = "" ∨ m.player2 = "" ∨ m.player1 = "BYE" ∨ m.player2 = "BYE" then st
    else
      match m.winner with
      | none => st
      | some w =>
        let loser := if w = m.player1 then m.player2 else m.player1
        if w = "" ∨ loser = "" then st
        else
          let isForfeit := m.forfeited
          let hasScore := m.player1Score.isSome ∧ m.player2Score.isSome
          if ¬ isForfeit ∧ ¬ hasScore then st
          else if isForfeit then
            { st with
              stats := if (statsFind st.stats w).isSome then
                  updateStats st.stats w (fun s => { s with swiss_wins := s.swiss_wins + 1 })
                else st.stats,
              streaks := setFun st.streaks loser 0 }
          else
            let st1 : SwissState :=
              if (statsFind st.stats w).isSome then
                let currentStreak := st.streaks w
                let newStreak := currentStreak + 1
                { st with
                  stats := updateStats st.stats w
                    (fun s => { s with swiss_wins := s.swiss_wins + 1 }),
                  streaks := setFun st.streaks w newStreak,
                  bonuses := if newStreak ≥ 2 then
                      (if newStreak > currentStreak ∧ currentStreak ≥ 1 then
                        setFun st.bonuses w (st.bonuses w + mkRat 1 2)
                      else st.bonuses)
                    else st.bonuses }
              else st
            if (statsFind st1.stats loser).isSome then
              { st1 with
                stats := updateStats st1.stats loser (loserLossUpdate m),
                streaks := setFun st1.streaks loser 0 }
            else st1
  else st

/-- The distinct round values among the group matches, in order of first
appearance (`new Set(groupMatches.map(match => match.round))`). -/
def distinctRounds (ms : List MatchWithPlayers) : List Int :=
  ms.foldl (fun acc m => if acc.contains m.round then acc else acc ++ [m.round]) []

/-- Insert for the default-comparator JavaScript sort of the round keys:
keys are compared as strings. -/
def insertRoundKey (r : Int) : List Int → List Int
  | [] => [r]
  | x :: xs => if toString r ≤ toString x then r :: x :: xs else x :: insertRoundKey r xs

/-- `[...roundsMap.keys()].sort()`: the default comparator stringifies the
numeric keys and compares them lexicographically (so e.g. round 10 sorts
before round 2). -/
def sortRoundsJS (l : List Int) : List Int := l.foldr insertRoundKey []

/-- The group matches in processing order: rounds in (string-)sorted key
order, each round's matches in original list order. -/
def orderedGroupMatches (gms : List MatchWithPlayers) : List MatchWithPlayers :=
  (sortRoundsJS (distinctRounds gms)).foldr
    (fun r acc => gms.filter (fun m => m.round == r) ++ acc) []

/-- The full round-by-round Swiss pass. -/
def swissRoundPass (eventId : String) (players : List String)
    (gms : List MatchWithPlayers) : SwissState :=
  (orderedGroupMatches gms).foldl processSwissMatch (initSwissState eventId players)

/-- `stats.streak_bonus = totalStreakBonuses.get(player) || 0` for one
record. -/
def bonusStat (bon : String → ℚ) (s : PlayerStats) : PlayerStats :=
  { s with streak_bonus := bon s.player }

/-- The streak-bonus application pass; the stats map's keys are exactly the
discovered players, so the per-player loop is a map over the stats list. -/
def applyBonuses (st : SwissState) : List PlayerStats :=
  st.stats.map (bonusStat st.bonuses)

/-- Number of completed group matches involving player `p`. -/
def playedCount (gms : List MatchWithPlayers) (p : String) : Nat :=
  (gms.filter (fun m => (m.player1 == p || m.player2 == p) && m.state == "complete")).length

/-- `stats.byes = Math.max(0, groupRounds - actualMatches)` for one
record. -/
def byeStat (gms : List MatchWithPlayers) (s : PlayerStats) : PlayerStats :=
  { s with byes := max 0 (((distinctRounds gms).length : ℚ) - (playedCount gms s.player : ℚ)) }

/-- The bye pass (again a map over the stats list, whose keys are exactly
the players). -/
def byePass (gms : List MatchWithPlayers) (l : List PlayerStats) : List PlayerStats :=
  l.map (byeStat gms)

/-- `everPlayed`: the player has some completed, non-forfeited match in the
full match list carrying a numeric score (or a score difference). -/
def everPlayed (ms : List MatchWithPlayers) (p : String) : Bool :=
  ms.any fun m =>
    ((m.player1 == p) || (m.player2 == p)) && (m.state == "complete") && (!m.forfeited) &&
      ((m.player1Score.isSome && m.player2Score.isSome) || m.scoreDifference.isSome)

/-- The wipe applied to one record: zero every counter of a player who
never played a scored, non-forfeit game (`finals_place` is left untouched
by the source). -/
def wipeStat (ms : List MatchWithPlayers) (s : PlayerStats) : PlayerStats :=
  if everPlayed ms s.player then s
  else { s with swiss_wins := 0, swiss_losses := 0, swiss_close_losses := 0,
                byes := 0, streak_bonus := 0, finals_points := 0, event_total := 0 }

/-- The wipe pass. -/
def wipePass (ms : List MatchWithPlayers) (l : List PlayerStats) : List PlayerStats :=
  l.map (wipeStat ms)

/-- The stats after the round pass, streak-bonus application and bye
counting — the whole group-stage block up to (excluding) the wipe; the
block runs only when at least one group match exists. -/
def statsAfterByes (t : ChallongeTournament) (ms : List MatchWithPlayers) : List PlayerStats :=
  let gms := groupMatchesOf ms
  let players := collectPlayers ms
  if gms.isEmpty then players.map (initStats t.id)
  else byePass gms (applyBonuses (swissRoundPass t.id players gms))

/-- The stats at the end of the group-stage block (after the wipe, which
also only runs when at least one group match exists). -/
def statsAfterSwiss (t : ChallongeTournament) (ms : List MatchWithPlayers) : List PlayerStats :=
  if (groupMatchesOf ms).isEmpty then statsAfterByes t ms
  else wipePass ms (statsAfterByes t ms)

/-- Participants carrying a `final_rank`. -/
def finalists (t : ChallongeTournament) : List ChallongeParticipantData :=
  t.participants.filter (fun p => p.final_rank.isSome)

/-- `a.final_rank || 999` — the comparator key of the finalists sort
(a rank of 0 is falsy and also falls back to 999). -/
def rankKey (p : ChallongeParticipantData) : Int :=
  match p.final_rank with
  | some r => if r = 0 then 999 else r
  | none => 999

/-- Stable insert for the finalists sort (ascending by `rankKey`). -/
def insertFinalist (p : ChallongeParticipantData) :
    List ChallongeParticipantData → List ChallongeParticipantData
  | [] => [p]
  | x :: xs => if rankKey p ≤ rankKey x then p :: x :: xs else x :: insertFinalist p xs

/-- `.sort((a, b) => (a.final_rank || 999) - (b.final_rank || 999))` — a
stable ascending sort. -/
def sortFinalists (l : List ChallongeParticipantData) : List ChallongeParticipantData :=
  l.foldr insertFinalist []

/-- Finals points awarded for a given `final_rank`, with 0 for ranks
outside 1–8 (the source leaves `finals_points` untouched there, and it is
0 at that point of the computation). -/
def pointsForRank (r : Int) : ℚ :=
  if r = 1 then 6 else if r = 2 then 4 else if r = 3 then 3 else if r = 4 then 2
  else if 5 ≤ r ∧ r ≤ 8 then 1 else 0

/-- One finalist's effect on their stats record: `finals_place` is set to
the rank and `finals_points` assigned by the placement table (ranks beyond
8 leave the points field as it was). -/
def assignFinalist (fi : ChallongeParticipantData) (s : PlayerStats) : PlayerStats :=
  match fi.final_rank with
  | some r =>
    { s with finals_place := some r,
             finals_points :=
               if r = 1 then 6 else if r = 2 then 4 else if r = 3 then 3
               else if r = 4 then 2 else if 5 ≤ r ∧ r ≤ 8 then 1 else s.finals_points }
  | none => s

/-- The finals block body: every rank-sorted finalist writes their
placement into the stats map (when a record with their name exists). -/
def finalsPass (fs : List ChallongeParticipantData) (l : List PlayerStats) :
    List PlayerStats :=
  fs.foldl (fun acc fi => updateStats acc fi.name (assignFinalist fi)) l

/-- The stats after the finals block (which runs only when the finals
partition is non-empty). -/
def statsAfterFinals (t : ChallongeTournament) (ms : List MatchWithPlayers) :
    List PlayerStats :=
  if (finalMatchesOf ms).isEmpty then statsAfterSwiss t ms
  else finalsPass (sortFinalists (finalists t)) (statsAfterSwiss t ms)

/-- The total formula applied to one record. -/
def applyTotal (s : PlayerStats) : PlayerStats :=
  { s with event_total :=
      s.swiss_wins * 3 + s.swiss_close_losses * mkRat 3 2 + s.swiss_losses * mkRat 1 2 +
        s.streak_bonus + s.byes * 3 + s.finals_points }

/-- The final totals pass (a map: the stats map's keys are exactly the
players the loop iterates over). -/
def computeTotals (l : List PlayerStats) : List PlayerStats := l.map applyTotal

/-- Stable insert for the output sort (descending by `event_total`). -/
def insertByTotal (s : PlayerStats) : List PlayerStats → List PlayerStats
  | [] => [s]
  | x :: xs => if s.event_total ≥ x.event_total then s :: x :: xs else x :: insertByTotal s xs

/-- `.sort((a, b) => b.event_total - a.event_total)` — a stable descending
sort. -/
def sortByTotalDesc (l : List PlayerStats) : List PlayerStats := l.foldr insertByTotal []

/-- `calculatePlayerPoints` from `simpleBrackets.ts`, assembled from the
stages above in source order: group-stage block (round pass, streak
bonuses, byes, wipe), finals block, totals, descending sort. -/
def calculatePlayerPoints (t : ChallongeTournament) (ms : List MatchWithPlayers) :
    List PlayerStats :=
  sortByTotalDesc (computeTotals (statsAfterFinals t ms))

/-- The `/points` route's computation after fetching: process the raw
matches, then score them. -/
def pipelinePoints (t : ChallongeTournament) : List PlayerStats :=
  calculatePlayerPoints t (processMatches t)

/-! ## Auxiliary definitions used by the theorems -/

/-- The tournament with every match's `identifier` rewritten by `f`
(everything else unchanged). -/
def setIdentifiers (f : String → String) (t : ChallongeTournament) : ChallongeTournament :=
  { t with matchList := t.matchList.map (fun m => { m with identifier := f m.identifier }) }

/-- The effect of the Swiss per-match loop on one player's `(winStreaks,
totalStreakBonuses)` pair.  `names` is the (constant) key set of the stats
map; a scored win by `p` increments the streak and, when it extends an
already-started streak, adds 0.5 to the accumulated bonus; a loss (also by
forfeit) resets the streak; a forfeit win changes nothing for the winner. -/
def playerSwissStep (names : List String) (p : String) (sb : Nat × ℚ)
    (m : MatchWithPlayers) : Nat × ℚ :=
  if m.state = "complete" then
    if m.player1 = "" ∨ m.player2 = "" ∨ m.player1 = "BYE" ∨ m.player2 = "BYE" then sb
    else
      match m.winner with
      | none => sb
      | some w =>
        let loser := if w = m.player1 then m.player2 else m.player1
        if w = "" ∨ loser = "" then sb
        else
          if ¬ m.forfeited ∧ ¬ (m.player1Score.isSome ∧ m.player2Score.isSome) then sb
          else if m.forfeited then
            (if p = loser then 0 else sb.1, sb.2)
          else
            let sb1 : Nat × ℚ :=
              if names.contains w then
                (if p = w then sb.1 + 1 else sb.1,
                 if p = w ∧ sb.1 + 1 ≥ 2 ∧ sb.1 + 1 > sb.1 ∧ sb.1 ≥ 1 then sb.2 + mkRat 1 2 else sb.2)
              else sb
            if names.contains loser then
              (if p = loser then 0 else sb1.1, sb1.2)
            else sb1
  else sb

/-- One player's accumulated streak bonus over the ordered group matches:
0.5 for every scored win that extends a streak already standing at one or
more wins, summed over **all** streaks of the pass (broken streaks keep
their bonus). -/
def playerStreakBonus (ms : List MatchWithPlayers) (p : String) : ℚ :=
  ((orderedGroupMatches (groupMatchesOf ms)).foldl
    (playerSwissStep (collectPlayers ms) p) (0, 0)).2

/-- The elementwise form of the finals block: the effect of the finalist
loop on a single stats record. -/
def finalsElem (fs : List ChallongeParticipantData) (s : PlayerStats) : PlayerStats :=
  fs.foldl (fun acc fi => if acc.player = fi.name then assignFinalist fi acc else acc) s

/-- Agreement of two stats records on identity and every Swiss-side
counter (everything except `finals_place`, `finals_points`,
`event_total`). -/
def SwissAgrees (a b : PlayerStats) : Prop :=
  a.event_id = b.event_id ∧ a.player = b.player ∧ a.swiss_wins = b.swiss_wins ∧
  a.swiss_losses = b.swiss_losses ∧ a.swiss_close_losses = b.swiss_close_losses ∧
  a.byes = b.byes ∧ a.streak_bonus = b.streak_bonus

/-- Agreement of two stats records on identity and the finals fields
(everything the Swiss round pass can touch is unconstrained). -/
def FinalsAgrees (a b : PlayerStats) : Prop :=
  a.event_id = b.event_id ∧ a.player = b.player ∧ a.finals_place = b.finals_place ∧
  a.finals_points = b.finals_points

/-! ## The claims under test, transcribed from the specification -/

/-- Claim C1's scoring table for one finals match, read off the spec: in a
completed finals match with identifier `"G"` whose winner `w` is one of the
two players, the winner's output record carries place 1 / 6 points and the
loser's place 2 / 4 points; identifier `"3P"` analogously places 3/4 with
3/2 points. -/
abbrev claimC1Match (out : List PlayerStats) (m : MatchWithPlayers) (w ident : String) :
    Prop :=
  (w = m.player1 ∨ w = m.player2) →
    ((ident = "G" → ∀ s ∈ out,
        (s.player = w → s.finals_place = some 1 ∧ s.finals_points = 6) ∧
        (s.player = (if w = m.player1 then m.player2 else m.player1) →
          s.finals_place = some 2 ∧ s.finals_points = 4)) ∧
     (ident = "3P" → ∀ s ∈ out,
        (s.player = w → s.finals_place = some 3 ∧ s.finals_points = 3) ∧
        (s.player = (if w = m.player1 then m.player2 else m.player1) →
          s.finals_place = some 4 ∧ s.finals_points = 2)))

/-- Claim C1 as stated, over the raw tournament handed to the pipeline:
finals points follow the `"G"`/`"3P"` identifier table. -/
abbrev claimC1Statement (t : ChallongeTournament) : Prop :=
  ∀ mr ∈ t.matchList,
    ((processedMatch t (participantMap t.participants) (groupPlayerMap t) mr).stageName = "Final Stage" ∨
     (processedMatch t (participantMap t.participants) (groupPlayerMap t) mr).stageName = "Main Bracket") →
    (processedMatch t (participantMap t.participants) (groupPlayerMap t) mr).state = "complete" →
    ∀ w ∈ (processedMatch t (participantMap t.participants) (groupPlayerMap t) mr).winner.toList,
      claimC1Match (pipelinePoints t)
        (processedMatch t (participantMap t.participants) (groupPlayerMap t) mr) w mr.identifier

/-- Claim C2 as stated: every player's output streak bonus equals
`max(0, S - 1) * 0.5` for `S` their streak standing at the end of the
Swiss pass. -/
abbrev claimC2Statement (t : ChallongeTournament) (ms : List MatchWithPlayers) : Prop :=
  ∀ s ∈ calculatePlayerPoints t ms,
    s.streak_bonus =
      max 0 (((swissRoundPass t.id (collectPlayers ms) (groupMatchesOf ms)).streaks s.player : ℚ) - 1)
        * mkRat 1 2

/-- Claim C3 as stated: a player with no completed, non-forfeited, scored
match has every counter — including `finals_points` and `event_total` —
equal to zero in the output. -/
abbrev claimC3Statement (t : ChallongeTournament) (ms : List MatchWithPlayers) : Prop :=
  ∀ s ∈ calculatePlayerPoints t ms, everPlayed ms s.player = false →
    s.swiss_wins = 0 ∧ s.swiss_losses = 0 ∧ s.swiss_close_losses = 0 ∧ s.byes = 0 ∧
    s.streak_bonus = 0 ∧ s.finals_points = 0 ∧ s.event_total = 0

/-! ## Concrete inputs for the counterexamples and witnesses -/

/-- A convenient match-record builder for engine-level inputs. -/
def mkMatch (r : Int) (p1 p2 : String) (w : Option String) (s1 s2 d : Option Int)
    (st stage : String) (ff : Bool) : MatchWithPlayers :=
  { matchId := "m", round := r, player1 := p1, player2 := p2, player1Score := s1,
    player2Score := s2, scoreDifference := d, winner := w, state := st, groupStage := none,
    stageName := stage, playOrder := none, createdAt := "", updatedAt := "",
    player1Id := none, player2Id := none, forfeited := ff }

/-- A tournament carrier with no participants. -/
def tourEmpty : ChallongeTournament :=
  { id := "T", name := "t", group_stages_enabled := true, group_stages := [],
    participants := [], matchList := [] }

/-- Player A wins rounds 1 and 2, then loses round 3: the accumulated
streak bonus is 0.5 while the standing streak is 0. -/
def msStreak : List MatchWithPlayers :=
  [mkMatch 1 "A" "B" (some "A") (some 5) (some 2) (some 3) "complete" "Group Stage" false,
   mkMatch 2 "A" "B" (some "A") (some 5) (some 2) (some 3) "complete" "Group Stage" false,
   mkMatch 3 "A" "B" (some "B") (some 5) (some 2) (some 3) "complete" "Group Stage" false]

/-- Participant A with `final_rank` 1. -/
def partARank1 : ChallongeParticipantData :=
  { id := "1", tournament_id := "T", name := "A", final_rank := some 1, seed := none,
    group_player_ids := none }

/-- Tournament whose only ranked participant is A. -/
def tourC3 : ChallongeTournament := { tourEmpty with participants := [partARank1] }

/-- A single pending Main-Bracket match: neither player ever played, yet
the finals partition is non-empty. -/
def msPending : List MatchWithPlayers :=
  [mkMatch 1 "A" "B" none none none none "pending" "Main Bracket" false]

/-- Round 1: a completed, scored group match between A and B whose winner
name "C" matches neither player; round 2 makes C a tracked player. -/
def msAlien : List MatchWithPlayers :=
  [mkMatch 1 "A" "B" (some "C") (some 5) (some 4) (some 1) "complete" "Group Stage" false,
   mkMatch 2 "C" "D" (some "C") (some 5) (some 2) (some 3) "complete" "Group Stage" false]

/-- A completed, scored round-1 group match. -/
def mGroupScored : MatchWithPlayers :=
  mkMatch 1 "A" "B" (some "A") (some 5) (some 2) (some 3) "complete" "Group Stage" false

/-- A round-2 group match that is still open (not `complete`). -/
def mGroupOpen : MatchWithPlayers :=
  mkMatch 2 "A" "B" none none none none "open" "Group Stage" false

/-- A raw completed grand-final match (identifier `"G"`) between
participants 1 and 2, won by participant 1 with score 5-2. -/
def rawMatchG : ChallongeMatchData :=
  { id := "M1", tournament_id := "T", identifier := "G", round := 1, state := "complete",
    player1_id := some "1", player2_id := some "2", player1_score := none,
    player2_score := none, winner_id := some "1", loser_id := some "2", group_id := none,
    suggested_play_order := none, created_at := "", updated_at := "",
    scores_csv := some "5-2", forfeited := false }

/-- Participant A (id 1) with no final rank. -/
def partANoRank : ChallongeParticipantData :=
  { id := "1", tournament_id := "T", name := "A", final_rank := none, seed := none,
    group_player_ids := none }

/-- Participant B (id 2) with no final rank. -/
def partBNoRank : ChallongeParticipantData :=
  { id := "2", tournament_id := "T", name := "B", final_rank := none, seed := none,
    group_player_ids := none }

/-- A tournament whose single match is a completed `"G"` final with a
resolved winner, but whose participants carry no `final_rank`. -/
def tourG : ChallongeTournament :=
  { id := "T", name := "t", group_stages_enabled := true, group_stages := [],
    participants := [partANoRank, partBNoRank], matchList := [rawMatchG] }

/-- Match inputs for the C10 witness: A's only appearance is a completed
group match, and the finals partition is a pending match between C and D. -/
def msTenWitness : List MatchWithPlayers :=
  [mkMatch 1 "A" "B" (some "A") (some 5) (some 2) (some 3) "complete" "Group Stage" false,
   mkMatch 1 "C" "D" none none none none "pending" "Main Bracket" false]

/-! ## Concrete output records used by the witnesses -/

/-- A's output record for the run on `[mGroupScored]`. -/
def outStatA : PlayerStats :=
  { event_id := "T", player := "A", swiss_wins := 1, swiss_losses := 0,
    swiss_close_losses := 0, byes := 0, streak_bonus := 0, finals_place := none,
    finals_points := 0, event_total := 3 }

/-- A's output record for the run on `msStreak`. -/
def streakStatA : PlayerStats :=
  { event_id := "T", player := "A", swiss_wins := 2, swiss_losses := 1,
    swiss_close_losses := 0, byes := 0, streak_bonus := mkRat 1 2, finals_place := none,
    finals_points := 0, event_total := 7 }

/-- A's output record for the run on `tourC3`/`msTenWitness`. -/
def tenStatA : PlayerStats :=
  { event_id := "T", player := "A", swiss_wins := 1, swiss_losses := 0,
    swiss_close_losses := 0, byes := 0, streak_bonus := 0, finals_place := some 1,
    finals_points := 6, event_total := 9 }

/-- A's record after the bye pass for the run on
`[mGroupScored, mGroupOpen]`. -/
def byesToken : PlayerStats :=
  { event_id := "T", player := "A", swiss_wins := 1, swiss_losses := 0,
    swiss_close_losses := 0, byes := 1, streak_bonus := 0, finals_place := none,
    finals_points := 0, event_total := 0 }

/-- A's output record for the run on `tourC3`/`msPending`. -/
def pendStatA : PlayerStats :=
  { event_id := "T", player := "A", swiss_wins := 0, swiss_losses := 0,
    swiss_close_losses := 0, byes := 0, streak_bonus := 0, finals_place := some 1,
    finals_points := 6, event_total := 6 }

/-- A fresh Swiss state over players A and B, used by single-step
witnesses. -/
def stW : SwissState := initSwissState "T" ["A", "B"]

/-- A completed, forfeited round-1 group match won by A. -/
def mForfeit : MatchWithPlayers :=
  mkMatch 1 "A" "B" (some "A") none none none "complete" "Group Stage" true

/-- A fresh Swiss state over players A, B and C. -/
def stW3 : SwissState := initSwissState "T" ["A", "B", "C"]

/-- A completed, scored round-1 group match between A and B whose winner
name is "C". -/
def mAlien : MatchWithPlayers :=
  mkMatch 1 "A" "B" (some "C") (some 5) (some 4) (some 1) "complete" "Group Stage" false

/-- A completed, scored match in a stage that is neither Swiss nor Finals:
both tabulators see an empty partition. -/
def msNeither : List MatchWithPlayers :=
  [mkMatch 1 "A" "B" (some "A") (some 5) (some 2) (some 3) "complete" "Other Stage" false]

/-- A's output record for the run on `msNeither`. -/
def neitherStatA : PlayerStats :=
  { event_id := "T", player := "A", swiss_wins := 0, swiss_losses := 0,
    swiss_close_losses := 0, byes := 0, streak_bonus := 0, finals_place := none,
    finals_points := 0, event_total := 0 }

/-! ## Helper lemmas -/

theorem mem_insertByTotal {s x : PlayerStats} {l : List PlayerStats} :
    s ∈ insertByTotal x l ↔ s = x ∨ s ∈ l := by
  induction l with
  | nil => simp [insertByTotal]
  | cons y ys ih =>
    by_cases h : x.event_total ≥ y.event_total
    · simp [insertByTotal, h]
    · simp only [insertByTotal, if_neg h, List.mem_cons, ih]
      tauto

theorem mem_sortByTotalDesc {s : PlayerStats} {l : List PlayerStats} :
    s ∈ sortByTotalDesc l ↔ s ∈ l := by
  induction l with
  | nil => simp [sortByTotalDesc]
  | cons y ys ih =>
    simp only [sortByTotalDesc, List.foldr_cons] at ih ⊢
    rw [mem_insertByTotal, ih, List.mem_cons]

theorem mem_calculatePlayerPoints {s : PlayerStats} {t : ChallongeTournament}
    {ms : List MatchWithPlayers} :
    s ∈ calculatePlayerPoints t ms ↔
      ∃ b ∈ statsAfterFinals t ms, s = applyTotal b := by
  unfold calculatePlayerPoints computeTotals
  rw [mem_sortByTotalDesc, List.mem_map]
  constructor
  · rintro ⟨b, hb, rfl⟩; exact ⟨b, hb, rfl⟩
  · rintro ⟨b, hb, rfl⟩; exact ⟨b, hb, rfl⟩

/-! ## Counterexamples -/

unseal Rat.add Rat.sub Rat.mul String.ltb in
/-- C1 counterexample: in `tourG` the only match is a completed
`"Final Stage"` match with identifier `"G"` and a resolved winner, yet the
engine awards that winner 0 finals points (no participant carries a
`final_rank`), so the identifier-table claim is false. -/
theorem c1_counterexample : ¬ claimC1Statement tourG := by decide

unseal Rat.add Rat.sub Rat.mul String.ltb in
/-- C2 counterexample: in `msStreak` player A wins rounds 1 and 2 and loses
round 3, so A's standing streak at the end of the Swiss pass is 0 while the
output `streak_bonus` is 0.5 — the bonus is accumulated over broken
streaks, not `max(0, S-1)*0.5`. -/
theorem c2_counterexample : ¬ claimC2Statement tourEmpty msStreak := by decide

unseal Rat.add Rat.sub Rat.mul String.ltb in
/-- C3 counterexample: in `tourC3`/`msPending` player A never played any
completed match, yet the output credits A `finals_points = 6` and
`event_total = 6` from A's `final_rank` (the wipe never runs without group
matches and in any case precedes the finals pass). -/
theorem c3_counterexample : ¬ claimC3Statement tourC3 msPending := by decide

unseal Rat.add Rat.sub Rat.mul String.ltb in
/-- C5 counterexample: the first match of `msAlien` is completed and scored
with winner name "C" matching neither player, yet the engine is not a
no-op on it: player1 "A" is charged a close loss, and "C" (a tracked
player) is credited the win. -/
theorem c5_counterexample :
    ((msAlien.get? 0).map (fun m => (m.state, m.winner, m.player1, m.player2)) =
      some ("complete", some "C", "A", "B")) ∧
    (statsFind (calculatePlayerPoints tourEmpty msAlien) "A").map
      (fun s => s.swiss_close_losses) = some 1 ∧
    (statsFind (calculatePlayerPoints tourEmpty msAlien) "C").map
      (fun s => s.swiss_wins) = some 2 := by
  decide

unseal Rat.add Rat.sub Rat.mul String.ltb in
/-- C6 counterexample: adding the non-complete round-2 Swiss match
`mGroupOpen` raises A's `byes` from 0 to 1 (its round still counts toward
`groupRounds`), so non-complete Swiss matches are not skipped entirely. -/
theorem c6_counterexample :
    mGroupOpen.stageName = "Group Stage" ∧ mGroupOpen.state ≠ "complete" ∧
    (statsFind (calculatePlayerPoints tourEmpty [mGroupScored]) "A").map
      (fun s => s.byes) = some 0 ∧
    (statsFind (calculatePlayerPoints tourEmpty [mGroupScored, mGroupOpen]) "A").map
      (fun s => s.byes) = some 1 := by
  decide

/-! ## Stats-map lemmas -/

theorem statsNames_updateStats {l : List PlayerStats} {p : String}
    {f : PlayerStats → PlayerStats} (hf : ∀ s, (f s).player = s.player) :
    statsNames (updateStats l p f) = statsNames l := by
  unfold statsNames updateStats
  rw [List.map_map]
  refine List.map_congr_left ?_
  intro s _
  by_cases h : s.player = p <;> simp [h, hf]

theorem updateStats_cons {s : PlayerStats} {ss : List PlayerStats} {p : String}
    {f : PlayerStats → PlayerStats} :
    updateStats (s :: ss) p f = (if s.player = p then f s else s) :: updateStats ss p f := rfl

theorem statsFind_cons {s : PlayerStats} {ss : List PlayerStats} {q : String} :
    statsFind (s :: ss) q = if s.player = q then some s else statsFind ss q := by
  unfold statsFind
  rw [List.find?_cons]
  by_cases h : s.player = q
  · simp [h]
  · have hb : (s.player == q) = false := by simp [h]
    simp [hb, h]

theorem statsFind_updateStats_self {l : List PlayerStats} {p : String}
    {f : PlayerStats → PlayerStats} (hf : ∀ s, (f s).player = s.player) :
    statsFind (updateStats l p f) p = (statsFind l p).map f := by
  induction l with
  | nil => rfl
  | cons s ss ih =>
    rw [updateStats_cons, statsFind_cons, statsFind_cons]
    by_cases h : s.player = p
    · simp [h, hf]
    · simp [h, ih]

theorem statsFind_updateStats_ne {l : List PlayerStats} {p q : String}
    {f : PlayerStats → PlayerStats} (hpq : q ≠ p) (hf : ∀ s, (f s).player = s.player) :
    statsFind (updateStats l p f) q = statsFind l q := by
  induction l with
  | nil => rfl
  | cons s ss ih =>
    rw [updateStats_cons, statsFind_cons, statsFind_cons]
    by_cases h : s.player = p
    · have h1 : (f s).player ≠ q := by rw [hf, h]; exact fun hc => hpq hc.symm
      have h2 : ¬ s.player = q := by rw [h]; exact fun hc => hpq hc.symm
      simp [h, h1, h2, ih, Ne.symm hpq]
    · by_cases h3 : s.player = q
      · simp [h, h3, hpq]
      · simp [h, h3, ih]

theorem statsFind_isSome_eq (l : List PlayerStats) (q : String) :
    (statsFind l q).isSome = (statsNames l).contains q := by
  induction l with
  | nil => rfl
  | cons s ss ih =>
    rw [statsFind_cons]
    by_cases h : s.player = q
    · simp [statsNames, h]
    · rw [if_neg h, ih]
      simp [statsNames, Ne.symm h]

theorem mem_updateStats {s : PlayerStats} {l : List PlayerStats} {p : String}
    {f : PlayerStats → PlayerStats} (hs : s ∈ updateStats l p f) :
    ∃ b ∈ l, s = b ∨ s = f b := by
  unfold updateStats at hs
  obtain ⟨b, hb, rfl⟩ := List.mem_map.mp hs
  by_cases h : b.player = p
  · exact ⟨b, hb, Or.inr (by simp [h])⟩
  · exact ⟨b, hb, Or.inl (by simp [h])⟩

/-! ## Agreement relations and the finals pass -/

theorem swissAgrees_refl (s : PlayerStats) : SwissAgrees s s :=
  ⟨rfl, rfl, rfl, rfl, rfl, rfl, rfl⟩

theorem swissAgrees_trans {a b c : PlayerStats} (h1 : SwissAgrees a b) (h2 : SwissAgrees b c) :
    SwissAgrees a c :=
  ⟨h1.1.trans h2.1, h1.2.1.trans h2.2.1, h1.2.2.1.trans h2.2.2.1,
   h1.2.2.2.1.trans h2.2.2.2.1, h1.2.2.2.2.1.trans h2.2.2.2.2.1,
   h1.2.2.2.2.2.1.trans h2.2.2.2.2.2.1, h1.2.2.2.2.2.2.trans h2.2.2.2.2.2.2⟩

theorem finalsAgrees_refl (s : PlayerStats) : FinalsAgrees s s := ⟨rfl, rfl, rfl, rfl⟩

theorem finalsAgrees_trans {a b c : PlayerStats} (h1 : FinalsAgrees a b)
    (h2 : FinalsAgrees b c) : FinalsAgrees a c :=
  ⟨h1.1.trans h2.1, h1.2.1.trans h2.2.1, h1.2.2.1.trans h2.2.2.1, h1.2.2.2.trans h2.2.2.2⟩

theorem assignFinalist_player (fi : ChallongeParticipantData) (s : PlayerStats) :
    (assignFinalist fi s).player = s.player := by
  unfold assignFinalist; cases fi.final_rank <;> rfl

theorem assignFinalist_swiss (fi : ChallongeParticipantData) (s : PlayerStats) :
    SwissAgrees (assignFinalist fi s) s := by
  unfold assignFinalist; cases fi.final_rank <;>
    exact ⟨rfl, rfl, rfl, rfl, rfl, rfl, rfl⟩

theorem finalsPass_eq_map (fs : List ChallongeParticipantData) (l : List PlayerStats) :
    finalsPass fs l = l.map (finalsElem fs) := by
  induction fs generalizing l with
  | nil =>
    show l = l.map (fun s => s)
    exact (List.map_id' l).symm
  | cons fi fs ih =>
    show finalsPass fs (updateStats l fi.name (assignFinalist fi)) = _
    rw [ih]
    unfold updateStats
    rw [List.map_map]
    rfl

theorem finalsElem_player (fs : List ChallongeParticipantData) (s : PlayerStats) :
    (finalsElem fs s).player = s.player := by
  induction fs generalizing s with
  | nil => rfl
  | cons fi fs ih =>
    show (finalsElem fs (if s.player = fi.name then assignFinalist fi s else s)).player = _
    rw [ih]
    by_cases h : s.player = fi.name
    · rw [if_pos h, assignFinalist_player]
    · rw [if_neg h]

theorem finalsElem_swiss (fs : List ChallongeParticipantData) (s : PlayerStats) :
    SwissAgrees (finalsElem fs s) s := by
  induction fs generalizing s with
  | nil => exact swissAgrees_refl s
  | cons fi fs ih =>
    show SwissAgrees (finalsElem fs (if s.player = fi.name then assignFinalist fi s else s)) s
    by_cases h : s.player = fi.name
    · rw [if_pos h]
      exact swissAgrees_trans (ih _) (assignFinalist_swiss fi s)
    · rw [if_neg h]
      exact ih s

theorem mem_statsAfterFinals_swiss {s : PlayerStats} {t : ChallongeTournament}
    {ms : List MatchWithPlayers} (hs : s ∈ statsAfterFinals t ms) :
    ∃ b ∈ statsAfterSwiss t ms, SwissAgrees s b := by
  unfold statsAfterFinals at hs
  by_cases h : (finalMatchesOf ms).isEmpty
  · rw [if_pos h] at hs
    exact ⟨s, hs, swissAgrees_refl s⟩
  · rw [if_neg h, finalsPass_eq_map] at hs
    obtain ⟨b, hb, rfl⟩ := List.mem_map.mp hs
    exact ⟨b, hb, finalsElem_swiss _ b⟩

/-! ## Invariants through the Swiss round pass -/

theorem finalsAgrees_incWin (s : PlayerStats) :
    FinalsAgrees { s with swiss_wins := s.swiss_wins + 1 } s := ⟨rfl, rfl, rfl, rfl⟩

theorem finalsAgrees_loss (m : MatchWithPlayers) (s : PlayerStats) :
    FinalsAgrees (loserLossUpdate m s) s := by
  unfold loserLossUpdate; split <;> exact ⟨rfl, rfl, rfl, rfl⟩

theorem mem_updateStats_fa {x : PlayerStats} {l : List PlayerStats} {p : String}
    {f : PlayerStats → PlayerStats} (hf : ∀ s, FinalsAgrees (f s) s)
    (hx : x ∈ updateStats l p f) : ∃ y ∈ l, FinalsAgrees x y := by
  obtain ⟨b, hb, h⟩ := mem_updateStats hx
  rcases h with h | h
  · exact ⟨b, hb, by rw [h]; exact finalsAgrees_refl b⟩
  · exact ⟨b, hb, by rw [h]; exact hf b⟩

theorem mem_updateStats_fa2 {x : PlayerStats} {l : List PlayerStats} {p q : String}
    {f g : PlayerStats → PlayerStats} (hf : ∀ s, FinalsAgrees (f s) s)
    (hg : ∀ s, FinalsAgrees (g s) s)
    (hx : x ∈ updateStats (updateStats l p f) q g) : ∃ y ∈ l, FinalsAgrees x y := by
  obtain ⟨y, hy, h1⟩ := mem_updateStats_fa hg hx
  obtain ⟨z, hz, h2⟩ := mem_updateStats_fa hf hy
  exact ⟨z, hz, finalsAgrees_trans h1 h2⟩

set_option maxHeartbeats 2000000 in
theorem mem_processSwissMatch_stats {x : PlayerStats} {st : SwissState}
    {m : MatchWithPlayers} (hx : x ∈ (processSwissMatch st m).stats) :
    ∃ y ∈ st.stats, FinalsAgrees x y := by
  simp only [processSwissMatch] at hx
  repeat' split at hx
  all_goals
    first
      | exact ⟨x, hx, finalsAgrees_refl x⟩
      | exact mem_updateStats_fa finalsAgrees_incWin hx
      | exact mem_updateStats_fa (finalsAgrees_loss _) hx
      | exact mem_updateStats_fa2 finalsAgrees_incWin (finalsAgrees_loss _) hx

theorem mem_foldl_processSwissMatch {x : PlayerStats} {msL : List MatchWithPlayers}
    {st : SwissState} (hx : x ∈ (msL.foldl processSwissMatch st).stats) :
    ∃ y ∈ st.stats, FinalsAgrees x y := by
  induction msL generalizing st with
  | nil => exact ⟨x, hx, finalsAgrees_refl x⟩
  | cons m msL ih =>
    obtain ⟨y, hy, h1⟩ := ih hx
    obtain ⟨z, hz, h2⟩ := mem_processSwissMatch_stats hy
    exact ⟨z, hz, finalsAgrees_trans h1 h2⟩

/-! ## The shape of `statsAfterSwiss` -/

theorem statsAfterByes_empty {t : ChallongeTournament} {ms : List MatchWithPlayers}
    (h : (groupMatchesOf ms).isEmpty = true) :
    statsAfterByes t ms = (collectPlayers ms).map (initStats t.id) := by
  unfold statsAfterByes
  rw [if_pos h]

theorem statsAfterByes_nonempty {t : ChallongeTournament} {ms : List MatchWithPlayers}
    (h : ¬ (groupMatchesOf ms).isEmpty = true) :
    statsAfterByes t ms =
      byePass (groupMatchesOf ms)
        (applyBonuses (swissRoundPass t.id (collectPlayers ms) (groupMatchesOf ms))) := by
  unfold statsAfterByes
  rw [if_neg h]

theorem statsAfterSwiss_empty {t : ChallongeTournament} {ms : List MatchWithPlayers}
    (h : (groupMatchesOf ms).isEmpty = true) :
    statsAfterSwiss t ms = (collectPlayers ms).map (initStats t.id) := by
  unfold statsAfterSwiss
  rw [if_pos h, statsAfterByes_empty h]

theorem statsAfterSwiss_nonempty {t : ChallongeTournament} {ms : List MatchWithPlayers}
    (h : ¬ (groupMatchesOf ms).isEmpty = true) :
    statsAfterSwiss t ms = wipePass ms (statsAfterByes t ms) := by
  unfold statsAfterSwiss
  rw [if_neg h]

theorem wipeStat_player (ms : List MatchWithPlayers) (s : PlayerStats) :
    (wipeStat ms s).player = s.player := by
  unfold wipeStat; split <;> rfl

theorem wipeStat_place (ms : List MatchWithPlayers) (s : PlayerStats) :
    (wipeStat ms s).finals_place = s.finals_place := by
  unfold wipeStat; split <;> rfl

theorem statsAfterSwiss_finals_clean {b : PlayerStats} {t : ChallongeTournament}
    {ms : List MatchWithPlayers} (hb : b ∈ statsAfterSwiss t ms) :
    b.finals_place = none ∧ b.finals_points = 0 := by
  by_cases h : (groupMatchesOf ms).isEmpty
  · rw [statsAfterSwiss_empty h] at hb
    obtain ⟨p, _, rfl⟩ := List.mem_map.mp hb
    exact ⟨rfl, rfl⟩
  · rw [statsAfterSwiss_nonempty h, statsAfterByes_nonempty h] at hb
    unfold wipePass byePass applyBonuses at hb
    obtain ⟨c, hc, rfl⟩ := List.mem_map.mp hb
    obtain ⟨d, hd, rfl⟩ := List.mem_map.mp hc
    obtain ⟨e, he, rfl⟩ := List.mem_map.mp hd
    unfold swissRoundPass at he
    obtain ⟨y, hy, hfa⟩ := mem_foldl_processSwissMatch he
    unfold initSwissState at hy
    obtain ⟨p, _, rfl⟩ := List.mem_map.mp hy
    have hpl : e.finals_place = none := hfa.2.2.1
    have hpt : e.finals_points = 0 := hfa.2.2.2
    constructor
    · rw [wipeStat_place]
      exact hpl
    · unfold wipeStat
      split
      · exact hpt
      · rfl

theorem statsAfterSwiss_never_played {b : PlayerStats} {t : ChallongeTournament}
    {ms : List MatchWithPlayers} (hb : b ∈ statsAfterSwiss t ms)
    (h : everPlayed ms b.player = false) :
    b.swiss_wins = 0 ∧ b.swiss_losses = 0 ∧ b.swiss_close_losses = 0 ∧ b.byes = 0 ∧
      b.streak_bonus = 0 := by
  by_cases hg : (groupMatchesOf ms).isEmpty
  · rw [statsAfterSwiss_empty hg] at hb
    obtain ⟨p, _, rfl⟩ := List.mem_map.mp hb
    exact ⟨rfl, rfl, rfl, rfl, rfl⟩
  · rw [statsAfterSwiss_nonempty hg] at hb
    unfold wipePass at hb
    obtain ⟨c, _, rfl⟩ := List.mem_map.mp hb
    rw [wipeStat_player] at h
    unfold wipeStat
    rw [h]
    simp

/-! ## C4: the event-total formula -/

/-- C4: every output record's `event_total` equals
`swissWins*3 + swissCloseLosses*1.5 + swissLosses*0.5 + streakBonus +
byes*3 + finalsPoints` computed from that same record's final counters
(the totals pass is the last writer of `event_total` and does not change
any other field). -/
theorem c4_event_total_formula (t : ChallongeTournament) (ms : List MatchWithPlayers)
    (s : PlayerStats) (hs : s ∈ calculatePlayerPoints t ms) :
    s.event_total = s.swiss_wins * 3 + s.swiss_close_losses * mkRat 3 2 +
      s.swiss_losses * mkRat 1 2 + s.streak_bonus + s.byes * 3 + s.finals_points := by
  obtain ⟨b, _, rfl⟩ := mem_calculatePlayerPoints.mp hs
  rfl

unseal Rat.add Rat.sub Rat.mul String.ltb in
/-- C4 witness: the formula instantiated on A's record of a concrete run. -/
theorem c4_witness :
    outStatA.event_total = outStatA.swiss_wins * 3 + outStatA.swiss_close_losses * mkRat 3 2 +
      outStatA.swiss_losses * mkRat 1 2 + outStatA.streak_bonus + outStatA.byes * 3 +
      outStatA.finals_points :=
  c4_event_total_formula tourEmpty [mGroupScored] outStatA (by decide)

/-! ## C7: bye counting -/

theorem mem_foldl_distinctRounds {x : Int} :
    ∀ (ms : List MatchWithPlayers) (acc : List Int),
      (x ∈ ms.foldl (fun acc m => if acc.contains m.round then acc else acc ++ [m.round]) acc ↔
        x ∈ acc ∨ ∃ m ∈ ms, m.round = x) := by
  intro ms
  induction ms with
  | nil => simp
  | cons m ms ih =>
    intro acc
    rw [List.foldl_cons, ih]
    by_cases h : acc.contains m.round
    · rw [if_pos h]
      have hm : m.round ∈ acc := by simpa using h
      constructor
      · rintro (ha | ⟨m', hm', hx⟩)
        · exact Or.inl ha
        · exact Or.inr ⟨m', List.mem_cons_of_mem m hm', hx⟩
      · rintro (ha | ⟨m', hm', hx⟩)
        · exact Or.inl ha
        · rcases List.mem_cons.mp hm' with rfl | hm''
          · exact Or.inl (hx ▸ hm)
          · exact Or.inr ⟨m', hm'', hx⟩
    · rw [if_neg h]
      simp only [List.mem_append, List.mem_singleton]
      constructor
      · rintro ((ha | hx) | ⟨m', hm', hx⟩)
        · exact Or.inl ha
        · exact Or.inr ⟨m, List.mem_cons_self m ms, hx.symm⟩
        · exact Or.inr ⟨m', List.mem_cons_of_mem m hm', hx⟩
      · rintro (ha | ⟨m', hm', hx⟩)
        · exact Or.inl (Or.inl ha)
        · rcases List.mem_cons.mp hm' with rfl | hm''
          · exact Or.inl (Or.inr hx.symm)
          · exact Or.inr ⟨m', hm'', hx⟩

theorem mem_distinctRounds {x : Int} {ms : List MatchWithPlayers} :
    x ∈ distinctRounds ms ↔ x ∈ ms.map (fun m => m.round) := by
  unfold distinctRounds
  rw [mem_foldl_distinctRounds]
  simp [eq_comm]

theorem nodup_foldl_distinctRounds :
    ∀ (ms : List MatchWithPlayers) (acc : List Int), acc.Nodup →
      (ms.foldl (fun acc m => if acc.contains m.round then acc else acc ++ [m.round]) acc).Nodup := by
  intro ms
  induction ms with
  | nil => exact fun acc h => h
  | cons m ms ih =>
    intro acc hacc
    rw [List.foldl_cons]
    apply ih
    by_cases h : acc.contains m.round
    · rwa [if_pos h]
    · rw [if_neg h]
      refine List.Nodup.append hacc (List.nodup_singleton _) ?_
      intro x hx hx'
      rw [List.mem_singleton] at hx'
      subst hx'
      exact (by simpa using h : m.round ∉ acc) hx

theorem nodup_distinctRounds (ms : List MatchWithPlayers) : (distinctRounds ms).Nodup :=
  nodup_foldl_distinctRounds ms [] List.nodup_nil

theorem length_distinctRounds (ms : List MatchWithPlayers) :
    (distinctRounds ms).length = (ms.map (fun m => m.round)).dedup.length := by
  refine List.Perm.length_eq ?_
  refine (List.perm_ext_iff_of_nodup (nodup_distinctRounds ms) (List.nodup_dedup _)).mpr ?_
  intro a
  rw [mem_distinctRounds, List.mem_dedup]

/-- C7: after the round-by-round Swiss pass (including the bye pass and
before the wipe), every record's `byes` equals
`max(0, totalSwissRounds - playedMatches)`, with `totalSwissRounds` the
number of distinct round values among Swiss matches of any state and
`playedMatches` the number of completed Swiss matches involving the
player. -/
theorem c7_byes_formula (t : ChallongeTournament) (ms : List MatchWithPlayers)
    (s : PlayerStats) (hs : s ∈ statsAfterByes t ms) :
    s.byes = max 0 ((((groupMatchesOf ms).map (fun m => m.round)).dedup.length : ℚ) -
      ((groupMatchesOf ms).countP
        (fun m => (m.player1 == s.player || m.player2 == s.player) &&
          m.state == "complete") : ℚ)) := by
  have hcount : ∀ p, (groupMatchesOf ms).countP
      (fun m => (m.player1 == p || m.player2 == p) && m.state == "complete") =
      playedCount (groupMatchesOf ms) p := by
    intro p
    rw [List.countP_eq_length_filter]
    rfl
  by_cases h : (groupMatchesOf ms).isEmpty
  · rw [statsAfterByes_empty h] at hs
    obtain ⟨p, _, rfl⟩ := List.mem_map.mp hs
    have hmsnil : groupMatchesOf ms = [] := List.isEmpty_iff.mp h
    rw [hmsnil]
    simp [initStats, playedCount]
  · rw [statsAfterByes_nonempty h] at hs
    unfold byePass at hs
    obtain ⟨c, _, rfl⟩ := List.mem_map.mp hs
    have hp : (byeStat (groupMatchesOf ms) c).player = c.player := rfl
    rw [hp, hcount, ← length_distinctRounds]
    rfl

unseal Rat.add Rat.sub Rat.mul String.ltb in
/-- C7 witness: the bye formula instantiated on A's record after the bye
pass of a run with one completed and one open Swiss match in different
rounds. -/
theorem c7_witness :
    byesToken.byes = max 0 ((((groupMatchesOf [mGroupScored, mGroupOpen]).map
        (fun m => m.round)).dedup.length : ℚ) -
      ((groupMatchesOf [mGroupScored, mGroupOpen]).countP
        (fun m => (m.player1 == byesToken.player || m.player2 == byesToken.player) &&
          m.state == "complete") : ℚ)) :=
  c7_byes_formula tourEmpty [mGroupScored, mGroupOpen] byesToken (by decide)

/-! ## C8: forfeited Swiss matches -/

/-- C8: processing a completed, forfeited Swiss match between two distinct
proper players with a resolved winner `w`: the winner's record gains one
`swiss_wins` (when tracked) and the winner's streak is neither incremented
nor reset; the loser's record — in particular both loss counters — is
untouched and the loser's streak is reset to 0 (the bonus map is untouched
as well). -/
theorem c8_forfeit_effects (st : SwissState) (m : MatchWithPlayers) (w : String)
    (hstate : m.state = "complete")
    (h1 : m.player1 ≠ "" ∧ m.player1 ≠ "BYE")
    (h2 : m.player2 ≠ "" ∧ m.player2 ≠ "BYE")
    (hne : m.player1 ≠ m.player2)
    (hw : m.winner = some w)
    (hwp : w = m.player1 ∨ w = m.player2)
    (hff : m.forfeited = true) :
    statsFind (processSwissMatch st m).stats w =
      (statsFind st.stats w).map (fun s => { s with swiss_wins := s.swiss_wins + 1 }) ∧
    (processSwissMatch st m).streaks w = st.streaks w ∧
    (processSwissMatch st m).streaks (if w = m.player1 then m.player2 else m.player1) = 0 ∧
    statsFind (processSwissMatch st m).stats (if w = m.player1 then m.player2 else m.player1) =
      statsFind st.stats (if w = m.player1 then m.player2 else m.player1) ∧
    (processSwissMatch st m).bonuses = st.bonuses := by
  have hw0 : w ≠ "" := by
    rcases hwp with h | h
    · rw [h]; exact h1.1
    · rw [h]; exact h2.1
  have hl0 : (if w = m.player1 then m.player2 else m.player1) ≠ "" := by
    by_cases hc : w = m.player1
    · rw [if_pos hc]; exact h2.1
    · rw [if_neg hc]; exact h1.1
  have hlw : (if w = m.player1 then m.player2 else m.player1) ≠ w := by
    by_cases hc : w = m.player1
    · rw [if_pos hc, hc]; exact fun hcc => hne hcc.symm
    · rw [if_neg hc]; exact fun hcc => hc hcc.symm
  have hred : processSwissMatch st m =
      { st with
        stats := if (statsFind st.stats w).isSome then
            updateStats st.stats w (fun s => { s with swiss_wins := s.swiss_wins + 1 })
          else st.stats,
        streaks := setFun st.streaks (if w = m.player1 then m.player2 else m.player1) 0 } := by
    simp only [processSwissMatch, hstate, hw, hff, h1.1, h1.2, h2.1, h2.2, hw0, hl0]
    simp
  rw [hred]
  refine ⟨?_, ?_, ?_, ?_, rfl⟩
  · by_cases hfw : (statsFind st.stats w).isSome
    · rw [if_pos hfw]
      exact statsFind_updateStats_self (fun s => rfl)
    · rw [if_neg hfw]
      have : statsFind st.stats w = none := Option.not_isSome_iff_eq_none.mp hfw
      rw [this]
      rfl
  · show setFun st.streaks _ 0 w = st.streaks w
    unfold setFun
    rw [if_neg (fun hc => hlw hc.symm)]
  · show setFun st.streaks _ 0 _ = 0
    unfold setFun
    rw [if_pos rfl]
  · by_cases hfw : (statsFind st.stats w).isSome
    · rw [if_pos hfw]
      exact statsFind_updateStats_ne hlw (fun s => rfl)
    · rw [if_neg hfw]

unseal Rat.add Rat.sub Rat.mul String.ltb in
/-- C8 witness: the forfeit effects instantiated on a fresh state and a
concrete forfeited match won by A over B. -/
theorem c8_witness :
    statsFind (processSwissMatch stW mForfeit).stats "A" =
      (statsFind stW.stats "A").map (fun s => { s with swiss_wins := s.swiss_wins + 1 }) ∧
    (processSwissMatch stW mForfeit).streaks "A" = stW.streaks "A" ∧
    (processSwissMatch stW mForfeit).streaks "B" = 0 ∧
    statsFind (processSwissMatch stW mForfeit).stats "B" = statsFind stW.stats "B" ∧
    (processSwissMatch stW mForfeit).bonuses = stW.bonuses :=
  c8_forfeit_effects stW mForfeit "A" rfl (by decide) (by decide) (by decide) rfl
    (Or.inl rfl) rfl

/-! ## C6 amended: non-complete Swiss matches -/

/-- C6 amended: a non-complete Swiss match is a no-op for the per-match
round pass and does not count toward any player's played-match total; its
round can still count toward `totalSwissRounds` (see the counterexample),
which is why adding one can change byes. -/
theorem c6_amended_non_complete_skipped (st : SwissState) (m : MatchWithPlayers)
    (p : String) (gms : List MatchWithPlayers) (h : m.state ≠ "complete") :
    processSwissMatch st m = st ∧ playedCount (gms ++ [m]) p = playedCount gms p := by
  constructor
  · unfold processSwissMatch
    rw [if_neg h]
  · unfold playedCount
    rw [List.filter_append]
    have hnil : List.filter
        (fun m => (m.player1 == p || m.player2 == p) && m.state == "complete") [m] = [] := by
      simp [h]
    rw [hnil, List.append_nil]

unseal Rat.add Rat.sub Rat.mul String.ltb in
/-- C6 amended witness: instantiated on the open round-2 match. -/
theorem c6_amended_witness :
    processSwissMatch stW mGroupOpen = stW ∧
    playedCount ([mGroupScored] ++ [mGroupOpen]) "A" = playedCount [mGroupScored] "A" :=
  c6_amended_non_complete_skipped stW mGroupOpen "A" [mGroupScored] (by decide)

/-! ## C5 amended: unknown winner names -/

/-- C5 amended: a completed, scored Swiss match whose non-null winner name
matches neither player is **not** skipped: because
`loser = (winner === player1) ? player2 : player1`, `player1` is treated as
the loser — their record receives the (close-)loss update and their streak
is reset when tracked — the named winner, when tracked, is credited a win,
and `player2` is untouched. -/
theorem c5_amended_alien_winner_blames_player1 (st : SwissState) (m : MatchWithPlayers)
    (w : String)
    (hstate : m.state = "complete")
    (h1 : m.player1 ≠ "" ∧ m.player1 ≠ "BYE")
    (h2 : m.player2 ≠ "" ∧ m.player2 ≠ "BYE")
    (hne : m.player1 ≠ m.player2)
    (hw : m.winner = some w) (hw0 : w ≠ "")
    (hw1 : w ≠ m.player1) (hw2 : w ≠ m.player2)
    (hff : m.forfeited = false)
    (hsc : m.player1Score.isSome ∧ m.player2Score.isSome) :
    statsFind (processSwissMatch st m).stats m.player1 =
      (statsFind st.stats m.player1).map (loserLossUpdate m) ∧
    (processSwissMatch st m).streaks m.player1 =
      (if (statsFind st.stats m.player1).isSome then 0 else st.streaks m.player1) ∧
    statsFind (processSwissMatch st m).stats w =
      (statsFind st.stats w).map (fun s => { s with swiss_wins := s.swiss_wins + 1 }) ∧
    statsFind (processSwissMatch st m).stats m.player2 = statsFind st.stats m.player2 := by
  have hp1w : m.player1 ≠ w := fun hc => hw1 hc.symm
  have hp2w : m.player2 ≠ w := fun hc => hw2 hc.symm
  have hp2p1 : m.player2 ≠ m.player1 := fun hc => hne hc.symm
  have hLpl : ∀ s, (loserLossUpdate m s).player = s.player :=
    fun s => (finalsAgrees_loss m s).2.1
  have hloser : (if w = m.player1 then m.player2 else m.player1) = m.player1 := if_neg hw1
  have hred : processSwissMatch st m =
      (if (statsFind (if (statsFind st.stats w).isSome then
              { st with
                stats := updateStats st.stats w
                  (fun s => { s with swiss_wins := s.swiss_wins + 1 }),
                streaks := setFun st.streaks w (st.streaks w + 1),
                bonuses := if st.streaks w + 1 ≥ 2 then
                    (if st.streaks w + 1 > st.streaks w ∧ st.streaks w ≥ 1 then
                      setFun st.bonuses w (st.bonuses w + mkRat 1 2)
                    else st.bonuses)
                  else st.bonuses }
            else st : SwissState).stats m.player1).isSome then
        { (if (statsFind st.stats w).isSome then
              { st with
                stats := updateStats st.stats w
                  (fun s => { s with swiss_wins := s.swiss_wins + 1 }),
                streaks := setFun st.streaks w (st.streaks w + 1),
                bonuses := if st.streaks w + 1 ≥ 2 then
                    (if st.streaks w + 1 > st.streaks w ∧ st.streaks w ≥ 1 then
                      setFun st.bonuses w (st.bonuses w + mkRat 1 2)
                    else st.bonuses)
                  else st.bonuses }
            else st : SwissState) with
          stats := updateStats (if (statsFind st.stats w).isSome then
              { st with
                stats := updateStats st.stats w
                  (fun s => { s with swiss_wins := s.swiss_wins + 1 }),
                streaks := setFun st.streaks w (st.streaks w + 1),
                bonuses := if st.streaks w + 1 ≥ 2 then
                    (if st.streaks w + 1 > st.streaks w ∧ st.streaks w ≥ 1 then
                      setFun st.bonuses w (st.bonuses w + mkRat 1 2)
                    else st.bonuses)
                  else st.bonuses }
            else st : SwissState).stats m.player1 (loserLossUpdate m),
          streaks := setFun (if (statsFind st.stats w).isSome then
              { st with
                stats := updateStats st.stats w
                  (fun s => { s with swiss_wins := s.swiss_wins + 1 }),
                streaks := setFun st.streaks w (st.streaks w + 1),
                bonuses := if st.streaks w + 1 ≥ 2 then
                    (if st.streaks w + 1 > st.streaks w ∧ st.streaks w ≥ 1 then
                      setFun st.bonuses w (st.bonuses w + mkRat 1 2)
                    else st.bonuses)
                  else st.bonuses }
            else st : SwissState).streaks m.player1 0 }
      else (if (statsFind st.stats w).isSome then
              { st with
                stats := updateStats st.stats w
                  (fun s => { s with swiss_wins := s.swiss_wins + 1 }),
                streaks := setFun st.streaks w (st.streaks w + 1),
                bonuses := if st.streaks w + 1 ≥ 2 then
                    (if st.streaks w + 1 > st.streaks w ∧ st.streaks w ≥ 1 then
                      setFun st.bonuses w (st.bonuses w + mkRat 1 2)
                    else st.bonuses)
                  else st.bonuses }
            else st : SwissState)) := by
    simp only [processSwissMatch, hstate, hw, hff, hsc.1, hsc.2, hloser]
    simp [h1.1, h1.2, h2.1, h2.2, hw0]
  rw [hred]
  by_cases hA : (statsFind st.stats w).isSome
  · have hc2 : statsFind
        (updateStats st.stats w (fun s => { s with swiss_wins := s.swiss_wins + 1 }))
        m.player1 = statsFind st.stats m.player1 :=
      statsFind_updateStats_ne hp1w (fun s => rfl)
    rw [if_pos hA]
    by_cases hB : (statsFind st.stats m.player1).isSome
    · rw [if_pos (by show (statsFind (updateStats _ _ _) _).isSome; rw [hc2]; exact hB)]
      refine ⟨?_, ?_, ?_, ?_⟩
      · show statsFind (updateStats _ m.player1 (loserLossUpdate m)) m.player1 = _
        rw [statsFind_updateStats_self hLpl, hc2]
      · show setFun _ m.player1 0 m.player1 = _
        unfold setFun
        rw [if_pos rfl, if_pos hB]
      · show statsFind (updateStats _ m.player1 (loserLossUpdate m)) w = _
        rw [statsFind_updateStats_ne hw1 hLpl]
        exact statsFind_updateStats_self (fun s => rfl)
      · show statsFind (updateStats _ m.player1 (loserLossUpdate m)) m.player2 = _
        rw [statsFind_updateStats_ne hp2p1 hLpl]
        exact statsFind_updateStats_ne hp2w (fun s => rfl)
    · rw [if_neg (by show ¬ (statsFind (updateStats _ _ _) _).isSome; rw [hc2]; exact hB)]
      have hnone : statsFind st.stats m.player1 = none :=
        Option.not_isSome_iff_eq_none.mp hB
      refine ⟨?_, ?_, ?_, ?_⟩
      · show statsFind (updateStats _ _ _) m.player1 = _
        rw [hc2, hnone]
        rfl
      · show setFun st.streaks w (st.streaks w + 1) m.player1 = _
        unfold setFun
        rw [if_neg hp1w, if_neg hB]
      · exact statsFind_updateStats_self (fun s => rfl)
      · exact statsFind_updateStats_ne hp2w (fun s => rfl)
  · rw [if_neg hA]
    have hAnone : statsFind st.stats w = none := Option.not_isSome_iff_eq_none.mp hA
    by_cases hB : (statsFind st.stats m.player1).isSome
    · rw [if_pos hB]
      refine ⟨?_, ?_, ?_, ?_⟩
      · exact statsFind_updateStats_self hLpl
      · show setFun st.streaks m.player1 0 m.player1 = _
        unfold setFun
        rw [if_pos rfl, if_pos hB]
      · rw [statsFind_updateStats_ne hw1 hLpl, hAnone]
        rfl
      · exact statsFind_updateStats_ne hp2p1 hLpl
    · rw [if_neg hB]
      have hnone : statsFind st.stats m.player1 = none :=
        Option.not_isSome_iff_eq_none.mp hB
      refine ⟨?_, ?_, ?_, ?_⟩
      · rw [hnone]; rfl
      · rw [if_neg hB]
      · rw [hAnone]; rfl
      · rfl

unseal Rat.add Rat.sub Rat.mul String.ltb in
/-- C5 amended witness: instantiated on a fresh three-player state and the
concrete match `mAlien` (A vs B, winner name "C"). -/
theorem c5_amended_witness :
    statsFind (processSwissMatch stW3 mAlien).stats mAlien.player1 =
      (statsFind stW3.stats mAlien.player1).map (loserLossUpdate mAlien) ∧
    (processSwissMatch stW3 mAlien).streaks mAlien.player1 =
      (if (statsFind stW3.stats mAlien.player1).isSome then 0
       else stW3.streaks mAlien.player1) ∧
    statsFind (processSwissMatch stW3 mAlien).stats "C" =
      (statsFind stW3.stats "C").map (fun s => { s with swiss_wins := s.swiss_wins + 1 }) ∧
    statsFind (processSwissMatch stW3 mAlien).stats mAlien.player2 =
      statsFind stW3.stats mAlien.player2 :=
  c5_amended_alien_winner_blames_player1 stW3 mAlien "C" rfl (by decide) (by decide)
    (by decide) rfl (by decide) (by decide) (by decide) rfl (by decide)

/-! ## C3 amended: the wipe and never-played players -/

/-- C3 amended: a player with no completed, non-forfeited, scored match
ends with all five Swiss-side counters at zero and `eventTotal` equal to
`finalsPoints`; `finalsPoints` itself is *not* forced to zero (the wipe is
gated on the existence of group matches and precedes the finals pass, see
the counterexample). -/
theorem c3_amended_never_played_swiss_zero (t : ChallongeTournament)
    (ms : List MatchWithPlayers) (s : PlayerStats)
    (hs : s ∈ calculatePlayerPoints t ms) (h : everPlayed ms s.player = false) :
    s.swiss_wins = 0 ∧ s.swiss_losses = 0 ∧ s.swiss_close_losses = 0 ∧ s.byes = 0 ∧
      s.streak_bonus = 0 ∧ s.event_total = s.finals_points := by
  obtain ⟨b, hb, rfl⟩ := mem_calculatePlayerPoints.mp hs
  obtain ⟨c, hc, hag⟩ := mem_statsAfterFinals_swiss hb
  have hz := statsAfterSwiss_never_played hc (by rw [← hag.2.1]; exact h)
  obtain ⟨z1, z2, z3, z4, z5⟩ := hz
  have b1 : b.swiss_wins = 0 := hag.2.2.1.trans z1
  have b2 : b.swiss_losses = 0 := hag.2.2.2.1.trans z2
  have b3 : b.swiss_close_losses = 0 := hag.2.2.2.2.1.trans z3
  have b4 : b.byes = 0 := hag.2.2.2.2.2.1.trans z4
  have b5 : b.streak_bonus = 0 := hag.2.2.2.2.2.2.trans z5
  refine ⟨b1, b2, b3, b4, b5, ?_⟩
  show (applyTotal b).event_total = (applyTotal b).finals_points
  show b.swiss_wins * 3 + b.swiss_close_losses * mkRat 3 2 + b.swiss_losses * mkRat 1 2 +
      b.streak_bonus + b.byes * 3 + b.finals_points = b.finals_points
  rw [b1, b2, b3, b4, b5]
  ring

unseal Rat.add Rat.sub Rat.mul String.ltb in
/-- C3 amended witness: instantiated on A's record of the
`tourC3`/`msPending` run, where A never played yet carries 6 finals
points. -/
theorem c3_amended_witness :
    pendStatA.swiss_wins = 0 ∧ pendStatA.swiss_losses = 0 ∧
    pendStatA.swiss_close_losses = 0 ∧ pendStatA.byes = 0 ∧ pendStatA.streak_bonus = 0 ∧
    pendStatA.event_total = pendStatA.finals_points := by
  have h := c3_amended_never_played_swiss_zero tourC3 msPending pendStatA (by decide)
    (by decide)
  exact ⟨h.1, h.2.1, h.2.2.1, h.2.2.2.1, h.2.2.2.2.1, by
    rw [h.2.2.2.2.2]⟩

/-! ## C9: totality and empty partitions -/

/-- C9: the engine is a total function; on the empty match list it returns
the empty stats list, with no Swiss matches every output record has all
Swiss counters at zero, and with no Finals matches every output record has
no finals placement and zero finals points. -/
theorem c9_totality (t : ChallongeTournament) (ms : List MatchWithPlayers) :
    calculatePlayerPoints t [] = [] ∧
    ((groupMatchesOf ms).isEmpty = true → ∀ s ∈ calculatePlayerPoints t ms,
      s.swiss_wins = 0 ∧ s.swiss_losses = 0 ∧ s.swiss_close_losses = 0 ∧ s.byes = 0 ∧
        s.streak_bonus = 0) ∧
    ((finalMatchesOf ms).isEmpty = true → ∀ s ∈ calculatePlayerPoints t ms,
      s.finals_place = none ∧ s.finals_points = 0) := by
  refine ⟨rfl, ?_, ?_⟩
  · intro hg s hs
    obtain ⟨b, hb, rfl⟩ := mem_calculatePlayerPoints.mp hs
    obtain ⟨c, hc, hag⟩ := mem_statsAfterFinals_swiss hb
    rw [statsAfterSwiss_empty hg] at hc
    obtain ⟨p, _, rfl⟩ := List.mem_map.mp hc
    exact ⟨hag.2.2.1, hag.2.2.2.1, hag.2.2.2.2.1, hag.2.2.2.2.2.1, hag.2.2.2.2.2.2⟩
  · intro hf s hs
    obtain ⟨b, hb, rfl⟩ := mem_calculatePlayerPoints.mp hs
    unfold statsAfterFinals at hb
    rw [if_pos hf] at hb
    have hcl := statsAfterSwiss_finals_clean hb
    exact ⟨hcl.1, hcl.2⟩

unseal Rat.add Rat.sub Rat.mul String.ltb in
/-- C9 witness: the empty run returns `[]`, and on a match list whose
stage is neither Swiss nor Finals, A's record has zero Swiss counters and
no finals placement. -/
theorem c9_witness :
    calculatePlayerPoints tourEmpty [] = [] ∧
    (neitherStatA.swiss_wins = 0 ∧ neitherStatA.swiss_losses = 0 ∧
      neitherStatA.swiss_close_losses = 0 ∧ neitherStatA.byes = 0 ∧
      neitherStatA.streak_bonus = 0) ∧
    (neitherStatA.finals_place = none ∧ neitherStatA.finals_points = 0) :=
  ⟨(c9_totality tourEmpty msNeither).1,
   (c9_totality tourEmpty msNeither).2.1 (by decide) neitherStatA (by decide),
   (c9_totality tourEmpty msNeither).2.2 (by decide) neitherStatA (by decide)⟩

/-! ## C10: finals points come from `final_rank` -/

theorem mem_insertFinalist {x p : ChallongeParticipantData}
    {l : List ChallongeParticipantData} : x ∈ insertFinalist p l ↔ x = p ∨ x ∈ l := by
  induction l with
  | nil => simp [insertFinalist]
  | cons y ys ih =>
    by_cases h : rankKey p ≤ rankKey y
    · simp [insertFinalist, h]
    · simp only [insertFinalist, if_neg h, List.mem_cons, ih]
      tauto

theorem mem_sortFinalists {x : ChallongeParticipantData}
    {l : List ChallongeParticipantData} : x ∈ sortFinalists l ↔ x ∈ l := by
  induction l with
  | nil => simp [sortFinalists]
  | cons y ys ih =>
    simp only [sortFinalists, List.foldr_cons] at ih ⊢
    rw [mem_insertFinalist, ih, List.mem_cons]

theorem countP_insertFinalist (pred : ChallongeParticipantData → Bool)
    (p : ChallongeParticipantData) (l : List ChallongeParticipantData) :
    (insertFinalist p l).countP pred = (p :: l).countP pred := by
  induction l with
  | nil => rfl
  | cons y ys ih =>
    by_cases h : rankKey p ≤ rankKey y
    · rw [insertFinalist, if_pos h]
    · rw [insertFinalist, if_neg h]
      simp only [List.countP_cons, ih]
      ring

theorem countP_sortFinalists (pred : ChallongeParticipantData → Bool)
    (l : List ChallongeParticipantData) :
    (sortFinalists l).countP pred = l.countP pred := by
  induction l with
  | nil => rfl
  | cons y ys ih =>
    show (insertFinalist y (sortFinalists ys)).countP pred = _
    rw [countP_insertFinalist, List.countP_cons, List.countP_cons, ih]

theorem filter_sortFinalists_singleton {l : List ChallongeParticipantData}
    {q : ChallongeParticipantData} {n : String}
    (h : l.filter (fun fi => fi.name == n) = [q]) :
    (sortFinalists l).filter (fun fi => fi.name == n) = [q] := by
  have hc : (sortFinalists l).countP (fun fi => fi.name == n) = 1 := by
    rw [countP_sortFinalists, List.countP_eq_length_filter, h]
    rfl
  have hlen : ((sortFinalists l).filter (fun fi => fi.name == n)).length = 1 := by
    rw [← List.countP_eq_length_filter]
    exact hc
  obtain ⟨x, hx⟩ := List.length_eq_one.mp hlen
  have hxmem : x ∈ (sortFinalists l).filter (fun fi => fi.name == n) := by
    rw [hx]; exact List.mem_singleton_self x
  obtain ⟨hx1, hx2⟩ := List.mem_filter.mp hxmem
  have hxl : x ∈ l := mem_sortFinalists.mp hx1
  have hxfil : x ∈ l.filter (fun fi => fi.name == n) := List.mem_filter.mpr ⟨hxl, hx2⟩
  rw [h, List.mem_singleton] at hxfil
  rw [hx, hxfil]

theorem finalsElem_skip {fs : List ChallongeParticipantData} {s : PlayerStats}
    (h : fs.filter (fun fi => fi.name == s.player) = []) : finalsElem fs s = s := by
  induction fs with
  | nil => rfl
  | cons fi fs ih =>
    rw [List.filter_cons] at h
    by_cases hb : (fi.name == s.player) = true
    · rw [if_pos hb] at h
      exact absurd h (List.cons_ne_nil _ _)
    · rw [if_neg hb] at h
      have hne : ¬ s.player = fi.name := by
        intro hc
        exact hb (by rw [hc]; exact beq_self_eq_true _)
      show finalsElem fs (if s.player = fi.name then assignFinalist fi s else s) = s
      rw [if_neg hne]
      exact ih h

theorem finalsElem_unique {fs : List ChallongeParticipantData} {s : PlayerStats}
    {q : ChallongeParticipantData} {r : Int}
    (hfil : fs.filter (fun fi => fi.name == s.player) = [q])
    (hr : q.final_rank = some r) (h0 : s.finals_points = 0) :
    (finalsElem fs s).finals_place = some r ∧
      (finalsElem fs s).finals_points = pointsForRank r := by
  induction fs generalizing s with
  | nil => exact absurd hfil (by simp)
  | cons fi fs ih =>
    rw [List.filter_cons] at hfil
    by_cases hb : (fi.name == s.player) = true
    · rw [if_pos hb] at hfil
      obtain ⟨rfl, hrest⟩ : fi = q ∧ fs.filter (fun fi => fi.name == s.player) = [] := by
        have := List.cons_eq_cons.mp hfil
        exact ⟨this.1, this.2⟩
      have hpn : s.player = fi.name := (beq_iff_eq.mp hb).symm
      have hstep : finalsElem (fi :: fs) s =
          finalsElem fs (if s.player = fi.name then assignFinalist fi s else s) := rfl
      rw [hstep, if_pos hpn]
      have hskip : fs.filter (fun g => g.name == (assignFinalist fi s).player) = [] := by
        rw [assignFinalist_player]
        exact hrest
      rw [finalsElem_skip hskip]
      constructor
      · show (assignFinalist fi s).finals_place = some r
        unfold assignFinalist
        rw [hr]
      · show (assignFinalist fi s).finals_points = pointsForRank r
        unfold assignFinalist
        rw [hr]
        show (if r = 1 then (6 : ℚ) else if r = 2 then 4 else if r = 3 then 3
            else if r = 4 then 2 else if 5 ≤ r ∧ r ≤ 8 then 1 else s.finals_points)
          = pointsForRank r
        unfold pointsForRank
        split_ifs <;> first | rfl | exact h0
    · rw [if_neg hb] at hfil
      have hne : ¬ s.player = fi.name := by
        intro hc
        exact hb (by rw [hc]; exact beq_self_eq_true _)
      have hstep : finalsElem (fi :: fs) s =
          finalsElem fs (if s.player = fi.name then assignFinalist fi s else s) := rfl
      rw [hstep, if_neg hne]
      exact ih hfil h0

/-- C10: whenever the finals partition is non-empty, a tracked player whose
name belongs to exactly one ranked participant `q` receives `finals_place =
q.final_rank` and the placement-table points (6/4/3/2 for ranks 1–4, 1 for
ranks 5–8, 0 beyond), regardless of which — if any — finals matches the
player appears in. -/
theorem c10_finals_from_final_rank (t : ChallongeTournament) (ms : List MatchWithPlayers)
    (s : PlayerStats) (q : ChallongeParticipantData) (r : Int)
    (hf : (finalMatchesOf ms).isEmpty = false)
    (hs : s ∈ calculatePlayerPoints t ms)
    (hq : (finalists t).filter (fun fi => fi.name == s.player) = [q])
    (hr : q.final_rank = some r) :
    s.finals_place = some r ∧ s.finals_points = pointsForRank r := by
  obtain ⟨b, hb, rfl⟩ := mem_calculatePlayerPoints.mp hs
  unfold statsAfterFinals at hb
  rw [if_neg (by rw [hf]; exact Bool.false_ne_true)] at hb
  rw [finalsPass_eq_map] at hb
  obtain ⟨c, hc, rfl⟩ := List.mem_map.mp hb
  have hply : (applyTotal (finalsElem (sortFinalists (finalists t)) c)).player = c.player :=
    finalsElem_player _ c
  rw [hply] at hq
  have hfil : (sortFinalists (finalists t)).filter (fun fi => fi.name == c.player) = [q] :=
    filter_sortFinalists_singleton hq
  have h0 : c.finals_points = 0 := (statsAfterSwiss_finals_clean hc).2
  have hu := finalsElem_unique hfil hr h0
  exact ⟨hu.1, hu.2⟩

unseal Rat.add Rat.sub Rat.mul String.ltb in
/-- C10 witness: in the `tourC3`/`msTenWitness` run, A appears in no finals
match (the finals partition is a pending C-vs-D match) yet receives place 1
and 6 points from `final_rank = 1`. -/
theorem c10_witness :
    tenStatA.finals_place = some 1 ∧ tenStatA.finals_points = pointsForRank 1 :=
  c10_finals_from_final_rank tourC3 msTenWitness tenStatA partARank1 1 (by decide)
    (by decide) (by decide) rfl

/-! ## C1 amended: match identifiers are irrelevant to the pipeline -/

theorem allPlayerIds_setIdentifiers (f : String → String) (msL : List ChallongeMatchData) :
    allPlayerIds (msL.map (fun m => { m with identifier := f m.identifier })) =
      allPlayerIds msL := by
  unfold allPlayerIds
  rw [List.foldl_map]

theorem groupPlayerMap_setIdentifiers (f : String → String) (t : ChallongeTournament) :
    groupPlayerMap (setIdentifiers f t) = groupPlayerMap t := by
  unfold groupPlayerMap
  have h1 : (setIdentifiers f t).participants = t.participants := rfl
  have h2 : allPlayerIds (setIdentifiers f t).matchList = allPlayerIds t.matchList :=
    allPlayerIds_setIdentifiers f t.matchList
  rw [h1, h2]

theorem processMatches_setIdentifiers (f : String → String) (t : ChallongeTournament) :
    processMatches (setIdentifiers f t) = processMatches t := by
  unfold processMatches
  rw [groupPlayerMap_setIdentifiers]
  have h1 : (setIdentifiers f t).participants = t.participants := rfl
  rw [h1]
  show (t.matchList.map fun m => { m with identifier := f m.identifier }).map _ = _
  rw [List.map_map]
  rfl

/-- C1 amended: the scoring pipeline never reads match identifiers — the
processed match records drop the field entirely — so rewriting every
match's `identifier` (in particular `"G"`/`"3P"` markers) leaves the
output untouched; finals points follow `final_rank` only (C10). -/
theorem c1_amended_identifier_irrelevant (f : String → String) (t : ChallongeTournament) :
    pipelinePoints (setIdentifiers f t) = pipelinePoints t := by
  unfold pipelinePoints
  rw [processMatches_setIdentifiers]
  rfl

/-! ## C2 amended: streak bonuses accumulate -/

theorem statsNames_initSwissState (e : String) (players : List String) :
    statsNames (initSwissState e players).stats = players := by
  unfold statsNames initSwissState
  rw [List.map_map]
  have : ((fun s => s.player) ∘ initStats e) = fun p => p := rfl
  rw [this, List.map_id']

set_option maxHeartbeats 2000000 in
theorem statsNames_processSwissMatch (st : SwissState) (m : MatchWithPlayers) :
    statsNames (processSwissMatch st m).stats = statsNames st.stats := by
  simp only [processSwissMatch]
  repeat' split
  all_goals
    first
      | rfl
      | exact statsNames_updateStats (fun s => rfl)
      | exact statsNames_updateStats (fun s => (finalsAgrees_loss _ s).2.1)
      | exact (statsNames_updateStats (fun s => (finalsAgrees_loss _ s).2.1)).trans
          (statsNames_updateStats (fun s => rfl))

theorem setFun_self {α : Type} (f : String → α) (k : String) (v : α) :
    setFun f k v k = v := by
  unfold setFun
  rw [if_pos rfl]

theorem setFun_ne {α : Type} (f : String → α) (k x : String) (v : α) (h : x ≠ k) :
    setFun f k v x = f x := by
  unfold setFun
  rw [if_neg h]

theorem statsFind_isSome_iff_mem (l : List PlayerStats) (q : String) :
    (statsFind l q).isSome = true ↔ q ∈ statsNames l := by
  rw [statsFind_isSome_eq]
  simp

set_option maxHeartbeats 4000000 in
theorem processSwissMatch_proj (st : SwissState) (m : MatchWithPlayers) (p : String) :
    ((processSwissMatch st m).streaks p, (processSwissMatch st m).bonuses p) =
      playerSwissStep (statsNames st.stats) p (st.streaks p, st.bonuses p) m := by
  by_cases hc : m.state = "complete"
  case neg => simp [processSwissMatch, playerSwissStep, hc]
  by_cases hg : m.player1 = "" ∨ m.player2 = "" ∨ m.player1 = "BYE" ∨ m.player2 = "BYE"
  case pos => simp [processSwissMatch, playerSwissStep, hc, hg]
  cases hw : m.winner with
  | none => simp [processSwissMatch, playerSwissStep, hc, hg, hw]
  | some w =>
  by_cases hwl : w = "" ∨ (if w = m.player1 then m.player2 else m.player1) = ""
  · simp [processSwissMatch, playerSwissStep, hc, hg, hw, hwl]
  · push_neg at hg hwl
    obtain ⟨hg1, hg2, hg3, hg4⟩ := hg
    obtain ⟨hw0, hl0⟩ := hwl
    by_cases hff : m.forfeited
    · simp only [processSwissMatch, playerSwissStep, hc, hw, hff]
      simp [hg1, hg2, hg3, hg4, hw0, hl0]
      by_cases hpl : p = (if w = m.player1 then m.player2 else m.player1)
      · rw [if_pos hpl, hpl, setFun_self]
      · rw [if_neg hpl, setFun_ne _ _ _ _ hpl]
    · by_cases hsc : m.player1Score.isSome ∧ m.player2Score.isSome
      case neg =>
        simp only [processSwissMatch, playerSwissStep, hc, hw, hff]
        simp [hg1, hg2, hg3, hg4, hw0, hl0, hsc]
      case pos =>
        simp only [processSwissMatch, playerSwissStep, hc, hw, hff, hsc.1, hsc.2]
        simp [hg1, hg2, hg3, hg4, hw0, hl0]
        have hnm : statsNames (updateStats st.stats w
            (fun s => { s with swiss_wins := s.swiss_wins + 1 })) = statsNames st.stats :=
          statsNames_updateStats (fun s => rfl)
        by_cases hcw : w ∈ statsNames st.stats
        · have hA : (statsFind st.stats w).isSome = true :=
            (statsFind_isSome_iff_mem st.stats w).mpr hcw
          simp only [hA, if_true]
          have hBiff : ∀ q, (statsFind (updateStats st.stats w
              (fun s => { s with swiss_wins := s.swiss_wins + 1 })) q).isSome = true ↔
                q ∈ statsNames st.stats := by
            intro q
            rw [statsFind_isSome_eq, hnm]
            simp
          by_cases hcl : (if w = m.player1 then m.player2 else m.player1) ∈ statsNames st.stats
          · have hB : (statsFind (updateStats st.stats w
                (fun s => { s with swiss_wins := s.swiss_wins + 1 }))
                (if w = m.player1 then m.player2 else m.player1)).isSome = true :=
              (hBiff _).mpr hcl
            simp only [hB, hcl, hcw, if_true]
            refine Prod.ext ?_ ?_
            · show setFun (setFun st.streaks w (st.streaks w + 1)) _ 0 p = _
              dsimp only
              by_cases hpl : p = (if w = m.player1 then m.player2 else m.player1)
              · rw [if_pos hpl, hpl, setFun_self]
              · rw [if_neg hpl, setFun_ne _ _ _ _ hpl]
                by_cases hpw : p = w
                · rw [if_pos hpw, hpw, setFun_self]
                · rw [if_neg hpw, setFun_ne _ _ _ _ hpw]
            · show (if 1 ≤ st.streaks w then
                  if 1 ≤ st.streaks w then setFun st.bonuses w (st.bonuses w + mkRat 1 2)
                  else st.bonuses
                else st.bonuses) p = _
              dsimp only
              by_cases hpw : p = w
              · subst hpw
                by_cases hone : 1 ≤ st.streaks p
                · rw [if_pos hone, if_pos hone, setFun_self, if_pos ⟨rfl, hone⟩]
                · rw [if_neg hone, if_neg (fun hcon => hone hcon.2)]
              · by_cases hone : 1 ≤ st.streaks w
                · rw [if_pos hone, if_pos hone, setFun_ne _ _ _ _ hpw,
                    if_neg (fun hcon => hpw hcon.1)]
                · rw [if_neg hone, if_neg (fun hcon => hpw hcon.1)]
          · have hB : ¬ (statsFind (updateStats st.stats w
                (fun s => { s with swiss_wins := s.swiss_wins + 1 }))
                (if w = m.player1 then m.player2 else m.player1)).isSome = true :=
              fun hcon => hcl ((hBiff _).mp hcon)
            rw [if_neg hB, if_neg hcl]
            simp only [hcw, if_true]
            refine Prod.ext ?_ ?_
            · show setFun st.streaks w (st.streaks w + 1) p = _
              dsimp only
              by_cases hpw : p = w
              · rw [if_pos hpw, hpw, setFun_self]
              · rw [if_neg hpw, setFun_ne _ _ _ _ hpw]
            · show (if 1 ≤ st.streaks w then
                  if 1 ≤ st.streaks w then setFun st.bonuses w (st.bonuses w + mkRat 1 2)
                  else st.bonuses
                else st.bonuses) p = _
              dsimp only
              by_cases hpw : p = w
              · subst hpw
                by_cases hone : 1 ≤ st.streaks p
                · rw [if_pos hone, if_pos hone, setFun_self, if_pos ⟨rfl, hone⟩]
                · rw [if_neg hone, if_neg (fun hcon => hone hcon.2)]
              · by_cases hone : 1 ≤ st.streaks w
                · rw [if_pos hone, if_pos hone, setFun_ne _ _ _ _ hpw,
                    if_neg (fun hcon => hpw hcon.1)]
                · rw [if_neg hone, if_neg (fun hcon => hpw hcon.1)]
        · have hA : ¬ (statsFind st.stats w).isSome = true :=
            fun hcon => hcw ((statsFind_isSome_iff_mem st.stats w).mp hcon)
          simp only [if_neg hA, if_neg hcw]
          by_cases hcl : (if w = m.player1 then m.player2 else m.player1) ∈ statsNames st.stats
          · have hB : (statsFind st.stats
                (if w = m.player1 then m.player2 else m.player1)).isSome = true :=
              (statsFind_isSome_iff_mem st.stats _).mpr hcl
            simp only [hB, hcl, if_true]
            refine Prod.ext ?_ ?_
            · show setFun st.streaks _ 0 p = _
              dsimp only
              by_cases hpl : p = (if w = m.player1 then m.player2 else m.player1)
              · rw [if_pos hpl, hpl, setFun_self]
              · rw [if_neg hpl, setFun_ne _ _ _ _ hpl]
            · rfl
          · have hB : ¬ (statsFind st.stats
                (if w = m.player1 then m.player2 else m.player1)).isSome = true :=
              fun hcon => hcl ((statsFind_isSome_iff_mem st.stats _).mp hcon)
            rw [if_neg hB, if_neg hcl]

theorem foldl_processSwissMatch_proj (p : String) :
    ∀ (msL : List MatchWithPlayers) (st : SwissState),
      ((msL.foldl processSwissMatch st).streaks p, (msL.foldl processSwissMatch st).bonuses p) =
        msL.foldl (playerSwissStep (statsNames st.stats) p) (st.streaks p, st.bonuses p) := by
  intro msL
  induction msL with
  | nil => intro _; rfl
  | cons m msL ih =>
    intro st
    rw [List.foldl_cons, List.foldl_cons, ih (processSwissMatch st m),
      statsNames_processSwissMatch, processSwissMatch_proj]

theorem statsAfterSwiss_streak_bonus {b : PlayerStats} {t : ChallongeTournament}
    {ms : List MatchWithPlayers} (hb : b ∈ statsAfterSwiss t ms) :
    b.streak_bonus = if everPlayed ms b.player then playerStreakBonus ms b.player else 0 := by
  by_cases hg : (groupMatchesOf ms).isEmpty
  · rw [statsAfterSwiss_empty hg] at hb
    obtain ⟨p, _, rfl⟩ := List.mem_map.mp hb
    have hnil : groupMatchesOf ms = [] := List.isEmpty_iff.mp hg
    have hzero : playerStreakBonus ms (initStats t.id p).player = 0 := by
      unfold playerStreakBonus
      rw [hnil]
      rfl
    rw [hzero, ite_self]
    rfl
  · rw [statsAfterSwiss_nonempty hg, statsAfterByes_nonempty hg] at hb
    unfold wipePass byePass applyBonuses at hb
    obtain ⟨c, hc, rfl⟩ := List.mem_map.mp hb
    obtain ⟨d, hd, rfl⟩ := List.mem_map.mp hc
    obtain ⟨e, he, rfl⟩ := List.mem_map.mp hd
    have hbon : (swissRoundPass t.id (collectPlayers ms) (groupMatchesOf ms)).bonuses e.player
        = playerStreakBonus ms e.player := by
      have hproj := foldl_processSwissMatch_proj e.player
        (orderedGroupMatches (groupMatchesOf ms)) (initSwissState t.id (collectPlayers ms))
      have h2 := congrArg Prod.snd hproj
      dsimp only at h2
      rw [statsNames_initSwissState] at h2
      exact h2
    have hplayer : (wipeStat ms (byeStat (groupMatchesOf ms)
        (bonusStat (swissRoundPass t.id (collectPlayers ms) (groupMatchesOf ms)).bonuses
          e))).player = e.player := by
      rw [wipeStat_player]; rfl
    rw [hplayer]
    have hYp : (byeStat (groupMatchesOf ms)
        (bonusStat (swissRoundPass t.id (collectPlayers ms) (groupMatchesOf ms)).bonuses
          e)).player = e.player := rfl
    unfold wipeStat
    rw [hYp]
    by_cases hev : everPlayed ms e.player
    · rw [if_pos hev, if_pos hev]
      exact hbon
    · rw [if_neg hev, if_neg hev]

/-- C2 amended: every output record's streak bonus is the **accumulated**
per-player bonus of the ordered Swiss pass — 0.5 for each scored win that
extends a streak already standing at one or more wins, summed over all
streaks including ones later broken (`playerSwissStep`/`playerStreakBonus`)
— zeroed only by the never-played wipe; it is not determined by the final
standing streak alone. -/
theorem c2_amended_streak_bonus_accumulates (t : ChallongeTournament)
    (ms : List MatchWithPlayers) (s : PlayerStats) (hs : s ∈ calculatePlayerPoints t ms) :
    s.streak_bonus = if everPlayed ms s.player then playerStreakBonus ms s.player else 0 := by
  obtain ⟨b, hb, rfl⟩ := mem_calculatePlayerPoints.mp hs
  obtain ⟨c, hc, hag⟩ := mem_statsAfterFinals_swiss hb
  have hsb := statsAfterSwiss_streak_bonus hc
  have hpl : (applyTotal b).player = c.player := hag.2.1
  rw [show (applyTotal b).streak_bonus = c.streak_bonus from hag.2.2.2.2.2.2, hpl]
  exact hsb

unseal Rat.add Rat.sub Rat.mul String.ltb in
/-- C2 amended witness: on `msStreak` player A's output bonus 0.5 equals
the accumulated per-player fold (A played, and the broken streak of rounds
1–2 keeps its half point). -/
theorem c2_amended_witness :
    streakStatA.streak_bonus =
      if everPlayed msStreak streakStatA.player
      then playerStreakBonus msStreak streakStatA.player else 0 :=
  c2_amended_streak_bonus_accumulates tourEmpty msStreak streakStatA (by decide)

end ChallongeToCsv
